import Mathlib

/-!
# Verification of the trino-reviewer analysis pipeline

Shallow embedding of the deterministic analysis-and-orchestration core of the
trino-reviewer repository: input validation, performance scoring, lineage
analysis, schema diff, JSON response extraction and result conversion.
Each definition translates the corresponding Python function; theorems settle
the specified properties of those functions.
-/

namespace TrinoReviewer

/-- Model of the Python `sub in s` substring test: `sub` occurs as a
contiguous infix of `s`. -/
def pyIn (sub s : String) : Bool := decide (sub.toList <:+: s.toList)

/-! ## Schema diff (`src/application/tools/schema_diff_tool.py`)

`SchemaDiffTool._run` converts both DDL lists to Python sets and takes
differences / intersection.  Python `set` semantics over strings is modelled
by `Finset String`. -/

/-- `added = proposed_set - current_set` in `SchemaDiffTool._run`. -/
def schemaDiffAdded (current_schema proposed_schema : List String) : Finset String :=
  proposed_schema.toFinset \ current_schema.toFinset

/-- `removed = current_set - proposed_set` in `SchemaDiffTool._run`. -/
def schemaDiffRemoved (current_schema proposed_schema : List String) : Finset String :=
  current_schema.toFinset \ proposed_schema.toFinset

/-- `unchanged = current_set & proposed_set` in `SchemaDiffTool._run`. -/
def schemaDiffUnchanged (current_schema proposed_schema : List String) : Finset String :=
  current_schema.toFinset ∩ proposed_schema.toFinset

/-- `breaking = [ddl for ddl in removed if "DROP" in ddl or "ALTER" in ddl]`
in `SchemaDiffTool._run` (membership form; Python iterates the `removed` set). -/
def schemaDiffBreaking (current_schema proposed_schema : List String) : Finset String :=
  (schemaDiffRemoved current_schema proposed_schema).filter
    (fun ddl => pyIn "DROP" ddl ∨ pyIn "ALTER" ddl)

/-! ## Priority score (`src/application/tools/performance_analyzer.py`)

`PerformanceAnalysisTool._calculate_priority_score` computes
`(execution_time * run_quantity**0.7) / 1000`, returning `0.0` when either
input is `<= 0`.  Python float arithmetic is modelled over `ℝ` with the real
power function. -/

/-- `PerformanceAnalysisTool._calculate_priority_score`. -/
noncomputable def calculate_priority_score (execution_time run_quantity : ℝ) : ℝ :=
  if execution_time ≤ 0 ∨ run_quantity ≤ 0 then 0
  else execution_time * run_quantity ^ (0.7 : ℝ) / 1000

/-! ## JSON extraction (`src/core/utils/json.py`)

`safe_extract_json` strips markdown code fences, collects balanced
`{...}` substrings (`_find_json_objects`) followed by balanced `[...]`
substrings (`_find_json_arrays`), returns the first candidate accepted by
`json.loads` (`_validate_json_candidates`), falls back to parsing the whole
stripped text, and otherwise raises `ValueError`. -/

/-- Characters matched by Python's regex `\s` (ASCII range), also the set
stripped by `str.strip()` for ASCII text. -/
def pyIsSpace (c : Char) : Bool :=
  c = ' ' ∨ c = '\t' ∨ c = '\n' ∨ c = '\r' ∨ c = '\x0b' ∨ c = '\x0c'

/-- One pass of `re.sub(lit + r"\s*", "", text)` for a literal pattern `lit`:
scan left to right, delete each occurrence of `lit` together with the greedy
run of whitespace that follows it.  Fuel-driven recursion; the callers pass
`length + 1` fuel, which always suffices because every step consumes at least
one character (`lit` is non-empty at both call sites). -/
def subLitSpaceGo (lit : List Char) : Nat → List Char → List Char
  | _, [] => []
  | 0, cs => cs
  | fuel + 1, c :: rest =>
    if lit.isPrefixOf (c :: rest) then
      subLitSpaceGo lit fuel (((c :: rest).drop lit.length).dropWhile pyIsSpace)
    else
      c :: subLitSpaceGo lit fuel rest

/-- `re.sub(lit + r"\s*", "", text)` for a literal pattern. -/
def pySub (lit : String) (text : List Char) : List Char :=
  subLitSpaceGo lit.toList (text.length + 1) text

/-- Python `str.strip()` (ASCII whitespace). -/
def pyStrip (l : List Char) : List Char :=
  ((l.dropWhile pyIsSpace).reverse.dropWhile pyIsSpace).reverse

/-- The fence-stripping prefix of `safe_extract_json`:
`re.sub(r"```json\s*", "", text)`, then `re.sub(r"```\s*", "", text)`,
then `text.strip()`. -/
def strip_markdown_json (text : String) : String :=
  String.mk (pyStrip (pySub "```" (pySub "```json" text.toList)))

/-- The depth-counting scan shared by `_find_json_objects` (`op = '{'`,
`cl = '}'`) and `_find_json_arrays` (`op = '['`, `cl = ']'`).  The Python
code remembers `start_pos` and slices `text[start_pos : i + 1]` when the
counter returns to zero; the slice is represented here by the accumulated
buffer `buf` of the characters seen since `start_pos` (`none` models
`start_pos == -1`), which holds exactly the same characters. -/
def scanDelim (op cl : Char) : List Char → Int → Option (List Char) → List String → List String
  | [], _, _, acc => acc.reverse
  | c :: rest, count, buf, acc =>
    if c = op then
      scanDelim op cl rest (count + 1)
        (if count = 0 then some [c] else buf.map (· ++ [c])) acc
    else if c = cl then
      if count - 1 = 0 then
        match buf with
        | some b => scanDelim op cl rest (count - 1) none (String.mk (b ++ [c]) :: acc)
        | none => scanDelim op cl rest (count - 1) none acc
      else
        scanDelim op cl rest (count - 1) (buf.map (· ++ [c])) acc
    else
      scanDelim op cl rest count (buf.map (· ++ [c])) acc

/-- `_find_json_objects`. -/
def find_json_objects (text : String) : List String :=
  scanDelim '{' '}' text.toList 0 none []

/-- `_find_json_arrays`. -/
def find_json_arrays (text : String) : List String :=
  scanDelim '[' ']' text.toList 0 none []

/-! ### Model of Python's `json.loads` (external standard library)

The extractor's notion of "parses as JSON" is Python's `json.loads`.  That
function is not part of this repository, so it is modelled here by a
recursive-descent parser for the JSON grammar as accepted by `json.loads`
with default options: the four JSON whitespace characters, strict strings
(raw control characters rejected, the standard escapes and `\uXXXX`),
strict number syntax plus the `NaN` / `Infinity` / `-Infinity` constants,
arrays and objects without trailing commas.  Numbers are kept as their
source text; lone-surrogate `\u` escapes are mapped through `Char.ofNat`. -/

/-- JSON values as produced by the `json.loads` model. -/
inductive Json where
  | null : Json
  | bool (b : Bool) : Json
  | num (raw : String) : Json
  | str (s : String) : Json
  | arr (elems : List Json) : Json
  | obj (fields : List (String × Json)) : Json

/-- JSON whitespace (the characters `json.loads` skips between tokens). -/
def jsonWsChar (c : Char) : Bool :=
  c = ' ' ∨ c = '\t' ∨ c = '\n' ∨ c = '\r'

/-- Value of a hexadecimal digit. -/
def hexVal (c : Char) : Option Nat :=
  if '0' ≤ c ∧ c ≤ '9' then some (c.toNat - '0'.toNat)
  else if 'a' ≤ c ∧ c ≤ 'f' then some (c.toNat - 'a'.toNat + 10)
  else if 'A' ≤ c ∧ c ≤ 'F' then some (c.toNat - 'A'.toNat + 10)
  else none

/-- Single-character string escapes accepted by `json.loads`. -/
def jsonEscape (c : Char) : Option Char :=
  if c = '"' then some '"'
  else if c = '\\' then some '\\'
  else if c = '/' then some '/'
  else if c = 'b' then some '\x08'
  else if c = 'f' then some '\x0c'
  else if c = 'n' then some '\n'
  else if c = 'r' then some '\r'
  else if c = 't' then some '\t'
  else none

/-- Parse the body of a JSON string literal (after the opening quote),
returning the decoded characters and the remainder after the closing quote. -/
def parseJStringChars : Nat → List Char → Option (List Char × List Char)
  | 0, _ => none
  | _ + 1, [] => none
  | _ + 1, '"' :: rest => some ([], rest)
  | fuel + 1, '\\' :: rest =>
    match rest with
    | 'u' :: h1 :: h2 :: h3 :: h4 :: rest2 =>
      match hexVal h1, hexVal h2, hexVal h3, hexVal h4 with
      | some a, some b, some c, some d =>
        (parseJStringChars fuel rest2).map
          (fun p => (Char.ofNat (((a * 16 + b) * 16 + c) * 16 + d) :: p.1, p.2))
      | _, _, _, _ => none
    | e :: rest2 =>
      match jsonEscape e with
      | some ch => (parseJStringChars fuel rest2).map (fun p => (ch :: p.1, p.2))
      | none => none
    | [] => none
  | fuel + 1, c :: rest =>
    if c.toNat < 32 then none
    else (parseJStringChars fuel rest).map (fun p => (c :: p.1, p.2))

/-- Parse a JSON number token (strict grammar: `-? (0|[1-9][0-9]*)
(\.[0-9]+)? ([eE][+-]?[0-9]+)?`), returning its raw characters. -/
def parseJNumber (cs : List Char) : Option (List Char × List Char) :=
  let signRest : List Char × List Char :=
    match cs with
    | '-' :: r => (['-'], r)
    | _ => ([], cs)
  let intPart : Option (List Char × List Char) :=
    match signRest.2 with
    | '0' :: r => some (['0'], r)
    | c :: r =>
      if c.isDigit then some (c :: r.takeWhile Char.isDigit, r.dropWhile Char.isDigit)
      else none
    | [] => none
  match intPart with
  | none => none
  | some (ip, rest1) =>
    let fracPart : Option (List Char × List Char) :=
      match rest1 with
      | '.' :: r =>
        let ds := r.takeWhile Char.isDigit
        if ds = [] then none else some ('.' :: ds, r.dropWhile Char.isDigit)
      | _ => some ([], rest1)
    match fracPart with
    | none => none
    | some (fp, rest2) =>
      let expPart : Option (List Char × List Char) :=
        match rest2 with
        | e :: r =>
          if e = 'e' ∨ e = 'E' then
            let signDigits : List Char × List Char :=
              match r with
              | '+' :: r2 => (['+'], r2)
              | '-' :: r2 => (['-'], r2)
              | _ => ([], r)
            let ds := signDigits.2.takeWhile Char.isDigit
            if ds = [] then none
            else some (e :: signDigits.1 ++ ds, signDigits.2.dropWhile Char.isDigit)
          else some ([], rest2)
        | [] => some ([], rest2)
      match expPart with
      | none => none
      | some (ep, rest3) => some (signRest.1 ++ ip ++ fp ++ ep, rest3)

mutual

/-- Parse one JSON value (model of `json.loads`'s scanner). -/
def parseJValue : Nat → List Char → Option (Json × List Char)
  | 0, _ => none
  | fuel + 1, cs0 =>
    let cs := cs0.dropWhile jsonWsChar
    match cs with
    | [] => none
    | 'n' :: rest =>
      if "ull".toList.isPrefixOf rest then some (Json.null, rest.drop 3) else none
    | 't' :: rest =>
      if "rue".toList.isPrefixOf rest then some (Json.bool true, rest.drop 3) else none
    | 'f' :: rest =>
      if "alse".toList.isPrefixOf rest then some (Json.bool false, rest.drop 4) else none
    | 'N' :: rest =>
      if "aN".toList.isPrefixOf rest then some (Json.num "NaN", rest.drop 2) else none
    | 'I' :: rest =>
      if "nfinity".toList.isPrefixOf rest then some (Json.num "Infinity", rest.drop 7)
      else none
    | '"' :: rest =>
      (parseJStringChars (rest.length + 1) rest).map
        (fun p => (Json.str (String.mk p.1), p.2))
    | '[' :: rest => parseJArrayTail fuel rest
    | '{' :: rest => parseJObjTail fuel rest
    | '-' :: rest =>
      if "Infinity".toList.isPrefixOf rest then some (Json.num "-Infinity", rest.drop 8)
      else (parseJNumber cs).map (fun p => (Json.num (String.mk p.1), p.2))
    | c :: _ =>
      if c.isDigit then (parseJNumber cs).map (fun p => (Json.num (String.mk p.1), p.2))
      else none

/-- Parse the remainder of a JSON array after `[`. -/
def parseJArrayTail : Nat → List Char → Option (Json × List Char)
  | 0, _ => none
  | fuel + 1, cs =>
    match cs.dropWhile jsonWsChar with
    | ']' :: rest => some (Json.arr [], rest)
    | cs1 => parseJArrayElems fuel cs1 []

/-- Parse array elements separated by commas (accumulator in reverse). -/
def parseJArrayElems : Nat → List Char → List Json → Option (Json × List Char)
  | 0, _, _ => none
  | fuel + 1, cs, acc =>
    match parseJValue fuel cs with
    | none => none
    | some (v, rest) =>
      match rest.dropWhile jsonWsChar with
      | ',' :: rest2 => parseJArrayElems fuel rest2 (v :: acc)
      | ']' :: rest2 => some (Json.arr (v :: acc).reverse, rest2)
      | _ => none

/-- Parse the remainder of a JSON object after `{`. -/
def parseJObjTail : Nat → List Char → Option (Json × List Char)
  | 0, _ => none
  | fuel + 1, cs =>
    match cs.dropWhile jsonWsChar with
    | '}' :: rest => some (Json.obj [], rest)
    | cs1 => parseJObjMembers fuel cs1 []

/-- Parse object members separated by commas (accumulator in reverse). -/
def parseJObjMembers : Nat → List Char → List (String × Json) → Option (Json × List Char)
  | 0, _, _ => none
  | fuel + 1, cs, acc =>
    match cs.dropWhile jsonWsChar with
    | '"' :: rest =>
      match parseJStringChars (rest.length + 1) rest with
      | none => none
      | some (key, rest1) =>
        match rest1.dropWhile jsonWsChar with
        | ':' :: rest2 =>
          match parseJValue fuel rest2 with
          | none => none
          | some (v, rest3) =>
            match rest3.dropWhile jsonWsChar with
            | ',' :: rest4 => parseJObjMembers fuel rest4 ((String.mk key, v) :: acc)
            | '}' :: rest4 => some (Json.obj ((String.mk key, v) :: acc).reverse, rest4)
            | _ => none
        | _ => none
    | _ => none

end

/-- Model of `json.loads(s)`: parse one value, then require only whitespace
to remain.  `none` models a raised `json.JSONDecodeError`. -/
def jsonParse (s : String) : Option Json :=
  match parseJValue (s.toList.length + 1) s.toList with
  | some (v, rest) => if rest.dropWhile jsonWsChar = [] then some v else none
  | none => none

/-- `json.loads(s)` succeeds. -/
def jsonValid (s : String) : Bool :=
  (jsonParse s).isSome

/-- `_validate_json_candidates`: try `json.loads` on each candidate in order,
returning the first that parses. -/
def validate_json_candidates : List String → Option String
  | [] => none
  | c :: rest => if jsonValid c then some c else validate_json_candidates rest

/-- `safe_extract_json`.  `Except.error` models the raised `ValueError`
(whose message is the fixed string below).  The Python guard `if result:`
is truthiness on an `Optional[str]`; it coincides with the `Option` match
because candidates are never the empty string (they contain their
delimiters). -/
def safe_extract_json (text : String) : Except String String :=
  let t := strip_markdown_json text
  match validate_json_candidates (find_json_objects t ++ find_json_arrays t) with
  | some result => Except.ok result
  | none =>
    if jsonValid t then Except.ok t
    else Except.error "Не удалось найти валидный JSON объект или массив"

/-- The `scanDelim` pass extended to record, for every emitted candidate, the
index of its closing character.  Used to express the specification's ordering
of candidates. -/
def scanDelimPos (op cl : Char) :
    List Char → Nat → Int → Option (List Char) → List (String × Nat) → List (String × Nat)
  | [], _, _, _, acc => acc.reverse
  | c :: rest, i, count, buf, acc =>
    if c = op then
      scanDelimPos op cl rest (i + 1) (count + 1)
        (if count = 0 then some [c] else buf.map (· ++ [c])) acc
    else if c = cl then
      if count - 1 = 0 then
        match buf with
        | some b => scanDelimPos op cl rest (i + 1) (count - 1) none ((String.mk (b ++ [c]), i) :: acc)
        | none => scanDelimPos op cl rest (i + 1) (count - 1) none acc
      else
        scanDelimPos op cl rest (i + 1) (count - 1) (buf.map (· ++ [c])) acc
    else
      scanDelimPos op cl rest (i + 1) count (buf.map (· ++ [c])) acc

/-- Insert into a list of (candidate, closing position) pairs keeping closing
positions ascending. -/
def insertByClose (x : String × Nat) : List (String × Nat) → List (String × Nat)
  | [] => [x]
  | y :: ys => if x.2 ≤ y.2 then x :: y :: ys else y :: insertByClose x ys

/-- Sort (candidate, closing position) pairs by ascending closing position. -/
def sortByClose : List (String × Nat) → List (String × Nat)
  | [] => []
  | x :: xs => insertByClose x (sortByClose xs)

/-- Modelled from the spec: "collects the balanced `{...}` and `[...]`
candidate substrings in the order their closing character appears in the
text".  Both scans record closing positions and the union is ordered by
closing position.  This definition follows the claim's words (it is not the
implementation) and exists to be compared with `safe_extract_json`. -/
def spec_candidates_in_closing_order (text : String) : List String :=
  let t := (strip_markdown_json text).toList
  (sortByClose
    (scanDelimPos '{' '}' t 0 0 none [] ++ scanDelimPos '[' ']' t 0 0 none [])).map Prod.fst

/-- Brace/bracket balance of a character list: occurrences of `op` minus
occurrences of `cl`. -/
def cntDelim (op cl : Char) (l : List Char) : Int :=
  (l.count op : Int) - (l.count cl : Int)

/-! ## Data lineage (`src/application/tools/data_lineage_tool.py`)

`DataLineageTool._extract_tables` runs
`re.findall(r"FROM\s+([\w\.]+)", q, re.IGNORECASE)` and the same for `JOIN`
and deduplicates via `list(set(...))`.  `_run` builds a dict mapping every
extracted table of a query to the set of `JOIN`-captures of that query, then
reports the three keys with the most dependencies.

Python's `set`/`dict` iteration order for `list(set(tables))` is
unspecified (hash-based); the model fixes first-occurrence order.  Every
property proved below is independent of that choice (set membership,
cardinalities, and the top-3 out-degree bound, which holds for any stable
tie order). -/

/-- Characters matched by the regex class `[\w\.]` (ASCII range). -/
def tableChar (c : Char) : Bool :=
  c.isAlphanum ∨ c = '_' ∨ c = '.'

/-- Case-insensitive literal prefix match (the `re.IGNORECASE` flag on a
literal keyword); returns the remainder on success. -/
def ciPrefixDrop : List Char → List Char → Option (List Char)
  | [], cs => some cs
  | _ :: _, [] => none
  | k :: ks, c :: cs => if c.toUpper = k.toUpper then ciPrefixDrop ks cs else none

/-- Try to match `kw + \s+ + ([\w\.]+)` at the current position, returning
the capture and the remainder after the match. -/
def matchKeywordAt (kw : List Char) (cs : List Char) : Option (List Char × List Char) :=
  match ciPrefixDrop kw cs with
  | none => none
  | some rest =>
    if rest.takeWhile pyIsSpace = [] then none
    else
      let rest2 := rest.dropWhile pyIsSpace
      let cap := rest2.takeWhile tableChar
      if cap = [] then none else some (cap, rest2.dropWhile tableChar)

/-- `re.findall(kw + r"\s+([\w\.]+)", text, re.IGNORECASE)`: scan left to
right, collecting non-overlapping matches.  Fuel-driven; callers pass
`length + 1`, sufficient because every step consumes at least one
character. -/
def findKwCaptures (kw : List Char) : Nat → List Char → List String
  | 0, _ => []
  | _ + 1, [] => []
  | fuel + 1, c :: rest =>
    match matchKeywordAt kw (c :: rest) with
    | some (cap, rest2) => String.mk cap :: findKwCaptures kw fuel rest2
    | none => findKwCaptures kw fuel rest

/-- The `FROM` captures of a query. -/
def extract_from_tables (query : String) : List String :=
  findKwCaptures "FROM".toList (query.toList.length + 1) query.toList

/-- The `JOIN` captures of a query. -/
def extract_join_tables (query : String) : List String :=
  findKwCaptures "JOIN".toList (query.toList.length + 1) query.toList

/-- Deduplication keeping the first occurrence (model of `list(set(...))`,
whose order Python leaves unspecified). -/
def dedupFirst (seen : List String) : List String → List String
  | [] => []
  | x :: xs => if x ∈ seen then dedupFirst seen xs else x :: dedupFirst (x :: seen) xs

/-- `DataLineageTool._extract_tables`: `FROM` captures plus `JOIN` captures,
deduplicated. -/
def extract_tables (query : String) : List String :=
  dedupFirst [] (extract_from_tables query ++ extract_join_tables query)

/-- The keys of the lineage dict, in insertion order: every table extracted
from any query, first occurrence first. -/
def lineage_keys (queries : List String) : List String :=
  dedupFirst [] (queries.map extract_tables).flatten

/-- The dependency set `graph[t]`: the `_run` loop adds, for every query `q`
and every `t` in `extract_tables(q)`, all `JOIN` captures of `q` to
`graph[t]`. -/
def lineage_deps (queries : List String) (t : String) : Finset String :=
  match queries with
  | [] => ∅
  | q :: rest =>
    (if t ∈ extract_tables q then (extract_join_tables q).toFinset else ∅) ∪
      lineage_deps rest t

/-- Dependency list of `t` in first-occurrence order (display order of the
set `graph[t]` in the report; Python leaves the set order unspecified). -/
def lineage_deps_list (queries : List String) (t : String) : List String :=
  dedupFirst []
    ((queries.filter (fun q => (extract_tables q).contains t)).map extract_join_tables).flatten

/-- Out-degree of a key. -/
def lineage_deg (queries : List String) (t : String) : Nat :=
  (lineage_deps queries t).card

/-- Stable insertion keeping `deg` descending (earlier elements win ties). -/
def insertByDegDesc (deg : String → Nat) (x : String) : List String → List String
  | [] => [x]
  | y :: ys => if deg y ≤ deg x then x :: y :: ys else y :: insertByDegDesc deg x ys

/-- Stable sort by `deg` descending: model of
`sorted(graph.items(), key=lambda x: len(x[1]), reverse=True)` (Python's
sort is stable). -/
def sortByDegDesc (deg : String → Nat) : List String → List String
  | [] => []
  | x :: xs => insertByDegDesc deg x (sortByDegDesc deg xs)

/-- The keys reported as critical tables: the first three keys after the
stable descending sort by out-degree. -/
def critical_tables (queries : List String) : List String :=
  (sortByDegDesc (lineage_deg queries) (lineage_keys queries)).take 3

/-- `DataLineageTool._run` report body (the `try` block). -/
def data_lineage_report (queries : List String) : String :=
  let keys := lineage_keys queries
  let graphLines := keys.map (fun t =>
    let deps := lineage_deps_list queries t
    t ++ " -> " ++ (if deps ≠ [] then String.intercalate ", " deps else "нет зависимостей"))
  let sorted := sortByDegDesc (lineage_deg queries) keys
  let critLines :=
    if sorted ≠ [] then
      "\n-- Критические таблицы:" ::
        (sorted.take 3).map (fun t => t ++ ": " ++ toString (lineage_deg queries t) ++ " зависимостей")
    else []
  String.intercalate "\n" (("=== ГРАФ ЗАВИСИМОСТЕЙ ТАБЛИЦ ===" :: graphLines) ++ critLines)

/-! ## Input validation (`src/application/agents/schema_reviewer.py`)

`SchemaReviewerAgent._parse_and_validate_payload` checks the raw payload
dict structurally (missing keys, wrong types, malformed elements) and then
calls `_validate_parsed_data` for semantic validation.  Payload values are
modelled by `PVal`, covering the value shapes expressible through the gRPC
request conversion and JSON-like inputs (strings, integers, lists, dicts). -/

/-- Python values appearing in request payloads. -/
inductive PVal where
  | pstr (s : String) : PVal
  | pint (n : Int) : PVal
  | plist (xs : List PVal) : PVal
  | pdict (fields : List (String × PVal)) : PVal

/-- Dict lookup (`payload.get(k)` / `k in payload`). -/
def pLookup (d : List (String × PVal)) (k : String) : Option PVal :=
  (d.find? (fun p => p.1 == k)).map (·.2)

mutual

/-- Python `str(v)`. -/
def pyStrVal : PVal → String
  | .pstr s => s
  | .pint n => toString n
  | .plist xs => "[" ++ pyReprList xs ++ "]"
  | .pdict fs => "\x7b" ++ pyReprDict fs ++ "\x7d"

/-- Python `repr(v)` (used for values nested in containers). -/
def pyRepr : PVal → String
  | .pstr s => "'" ++ s ++ "'"
  | .pint n => toString n
  | .plist xs => "[" ++ pyReprList xs ++ "]"
  | .pdict fs => "\x7b" ++ pyReprDict fs ++ "\x7d"

/-- Comma-separated reprs of list elements. -/
def pyReprList : List PVal → String
  | [] => ""
  | [x] => pyRepr x
  | x :: xs => pyRepr x ++ ", " ++ pyReprList xs

/-- Comma-separated `key: value` reprs of dict entries. -/
def pyReprDict : List (String × PVal) → String
  | [] => ""
  | [(k, v)] => "'" ++ k ++ "': " ++ pyRepr v
  | (k, v) :: fs => "'" ++ k ++ "': " ++ pyRepr v ++ ", " ++ pyReprDict fs

end

/-- Numeric value of a digit string. -/
def digitsVal (ds : List Char) : Nat :=
  ds.foldl (fun a c => a * 10 + (c.toNat - '0'.toNat)) 0

/-- Python `int(s)` on a string: strip whitespace, optional sign, decimal
digits.  (Digit-group underscores are not modelled.) -/
def pyIntOfString (s : String) : Option Int :=
  let cs := pyStrip s.toList
  let signDigits : Int × List Char :=
    match cs with
    | '+' :: r => (1, r)
    | '-' :: r => (-1, r)
    | _ => (1, cs)
  if signDigits.2 ≠ [] ∧ signDigits.2.all Char.isDigit then
    some (signDigits.1 * (digitsVal signDigits.2 : Int))
  else none

/-- Python `int(v)`; `none` models the raised `ValueError`/`TypeError`
(both are caught together at the call site). -/
def pyInt : PVal → Option Int
  | .pint n => some n
  | .pstr s => pyIntOfString s
  | _ => none

/-- A parsed query record (`Query(query_id=str(...), query=str(...),
runquantity=int(...), executiontime=int(...))`). -/
structure PyQuery where
  query_id : String
  query : String
  runquantity : Int
  executiontime : Int

/-- The structural DDL-element check of the parse loop: a dict with a
`statement` key, or a string. -/
def goodDDLItem : PVal → Bool
  | .pdict fs => (pLookup fs "statement").isSome
  | .pstr _ => true
  | _ => false

/-- The `ddl` parse loop: each element must be a dict with a `statement`
key (whose raw value is kept) or a string; the first malformed element
aborts with its index.  Errors are `(error, details)` pairs. -/
def parse_ddl_items : List PVal → Nat → Except (String × String) (List PVal)
  | [], _ => .ok []
  | item :: rest, i =>
    match item with
    | .pdict fs =>
      match pLookup fs "statement" with
      | some v => (parse_ddl_items rest (i + 1)).map (v :: ·)
      | none =>
        .error ("Неверный элемент DDL на индексе " ++ toString i,
          "Элементы DDL должны иметь поле 'statement' или быть строками")
    | .pstr s => (parse_ddl_items rest (i + 1)).map (PVal.pstr s :: ·)
    | _ =>
      .error ("Неверный элемент DDL на индексе " ++ toString i,
        "Элементы DDL должны иметь поле 'statement' или быть строками")

/-- The `queries` parse loop: each element must be a dict carrying the four
required fields, whose values are converted with `str()` / `int()`; the
first malformed element aborts with its index. -/
def parse_query_items : List PVal → Nat → Except (String × String) (List PyQuery)
  | [], _ => .ok []
  | item :: rest, i =>
    match item with
    | .pdict fs =>
      let missing := ["query_id", "query", "runquantity", "executiontime"].filter
        (fun k => (pLookup fs k).isNone)
      if missing ≠ [] then
        .error ("Неверный запрос на индексе " ++ toString i,
          "Отсутствующие поля: " ++ pyStrVal (.plist (missing.map .pstr)))
      else
        match pLookup fs "query_id", pLookup fs "query",
            pLookup fs "runquantity", pLookup fs "executiontime" with
        | some idv, some qv, some rqv, some etv =>
          match pyInt rqv, pyInt etv with
          | some rq, some et =>
            (parse_query_items rest (i + 1)).map
              (⟨pyStrVal idv, pyStrVal qv, rq, et⟩ :: ·)
          | _, _ =>
            .error ("Неверные данные запроса на индексе " ++ toString i,
              "Ошибка преобразования данных: int()")
        | _, _, _, _ =>
          .error ("Неверный запрос на индексе " ++ toString i,
            "Отсутствующие поля: " ++ pyStrVal (.plist (missing.map .pstr)))
    | _ =>
      .error ("Неверный элемент запроса на индексе " ++ toString i,
        "Элементы запроса должны быть словарями")

/-- The DDL loop of `_validate_parsed_data`.  A non-string `statement`
raises `AttributeError` on `.strip()`, modelled by `Except.error`; a blank
statement contributes an error message. -/
def ddl_item_errors : List PVal → Nat → Except String (List String)
  | [], _ => .ok []
  | PVal.pstr s :: rest, i =>
    (ddl_item_errors rest (i + 1)).map
      (fun es => (if pyStrip s.toList = [] then
        ["DDL утверждение " ++ toString i ++ " не может быть пустым"] else []) ++ es)
  | _ :: _, _ => .error "AttributeError"

/-- The query loop of `_validate_parsed_data`: error messages, in iteration
order, with the running `query_ids` set. -/
def query_errs : List PyQuery → Nat → List String → List String
  | [], _, _ => []
  | q :: rest, i, seen =>
    (if pyStrip q.query_id.toList = [] then
      ["Запрос " ++ toString i ++ " должен иметь непустой query_id"]
    else if q.query_id ∈ seen then
      ["Найден дубликат query_id: " ++ q.query_id]
    else []) ++
    (if pyStrip q.query.toList = [] then
      ["Запрос " ++ q.query_id ++ " не может быть пустым"] else []) ++
    query_errs rest (i + 1)
      (if pyStrip q.query_id.toList = [] then seen
       else if q.query_id ∈ seen then seen else q.query_id :: seen)

/-- The warnings accumulated by the query loop of `_validate_parsed_data`. -/
def query_warns : List PyQuery → List String
  | [] => []
  | q :: rest =>
    (if q.runquantity < 0 then
      ["Запрос " ++ q.query_id ++ " имеет отрицательное значение runquantity"] else []) ++
    (if q.executiontime < 0 then
      ["Запрос " ++ q.query_id ++ " имеет отрицательное значение executiontime"] else []) ++
    query_warns rest

/-- All errors of `_validate_parsed_data`, DDL part then query part. -/
def validation_errors (ddl : List PVal) (queries : List PyQuery) :
    Except String (List String) :=
  (if ddl.isEmpty then Except.ok ["Список DDL не может быть пустым"]
   else ddl_item_errors ddl 0).map
    (fun ddlErrs => ddlErrs ++
      (if queries.isEmpty then ["Список запросов не может быть пустым"]
       else query_errs queries 0 []))

/-- All warnings of `_validate_parsed_data`. -/
def validation_warnings (queries : List PyQuery) : List String :=
  if queries.isEmpty then [] else query_warns queries

/-- Result of `_validate_parsed_data`: the error dict (with its `details`
list and `warnings`) or `{"status": "valid"}` — the valid result carries no
warnings. -/
inductive VRes where
  | errorRes (error : String) (details : List String) (warnings : List String) : VRes
  | validRes : VRes

/-- `_validate_parsed_data` (the `Except.error` is a raised
`AttributeError`, caught by the caller's outer `except`). -/
def validate_parsed_data (ddl : List PVal) (queries : List PyQuery) :
    Except String VRes :=
  (validation_errors ddl queries).map
    (fun errs =>
      if errs ≠ [] then VRes.errorRes "Ошибка валидации" errs (validation_warnings queries)
      else VRes.validRes)

/-- Result of `_parse_and_validate_payload`: a structural error dict
(string `details`), the semantic-validation error dict (list `details` plus
`warnings`), or the parsed data. -/
inductive ParseResult where
  | perror (error : String) (details : String) : ParseResult
  | perrorList (error : String) (details : List String) (warnings : List String) : ParseResult
  | pok (url : String) (ddl : List PVal) (queries : List PyQuery) : ParseResult

/-- `SchemaReviewerAgent._parse_and_validate_payload`.  The three `none`
fallbacks inside the guarded region are unreachable: the missing-key guard
has already ensured the lookups succeed. -/
def parse_and_validate_payload (payload : List (String × PVal)) : ParseResult :=
  let missing := ["url", "ddl", "queries"].filter (fun k => (pLookup payload k).isNone)
  if missing ≠ [] then
    .perror "Отсутствуют обязательные ключи"
      ("Отсутствующие ключи: " ++ pyStrVal (.plist (missing.map .pstr)))
  else
    match pLookup payload "url" with
    | some (.pstr u) =>
      if u = "" then
        .perror "Неверный формат URL" "URL должен быть строкой и не должен быть пустым"
      else
        match pLookup payload "ddl" with
        | some (.plist ddlItems) =>
          match parse_ddl_items ddlItems 0 with
          | .error e => .perror e.1 e.2
          | .ok parsedDDL =>
            match pLookup payload "queries" with
            | some (.plist queryItems) =>
              match parse_query_items queryItems 0 with
              | .error e => .perror e.1 e.2
              | .ok parsedQueries =>
                match validate_parsed_data parsedDDL parsedQueries with
                | .error e => .perror "Ошибка парсинга полезной нагрузки" e
                | .ok (.errorRes err details warnings) => .perrorList err details warnings
                | .ok .validRes => .pok u parsedDDL parsedQueries
            | some _ => .perror "Неверный формат запросов" "Запросы должны быть списком"
            | none => .perror "Отсутствуют обязательные ключи" ""
        | some _ => .perror "Неверный формат DDL" "DDL должен быть списком"
        | none => .perror "Отсутствуют обязательные ключи" ""
    | some _ =>
      .perror "Неверный формат URL" "URL должен быть строкой и не должен быть пустым"
    | none => .perror "Отсутствуют обязательные ключи" ""

/-! ## Pipeline result and gRPC conversion
(`src/application/workflows/analyze_schema.py`,
`src/api/grpc/services/schema_review.py`)

`_parse_response_node` extracts and parses the provider response;
`AnalyzeSchemaWorkflow.execute` returns the parsed JSON as the review
result; `SchemaReviewerAgent.review` catches workflow exceptions into an
error dict; `_convert_result_to_grpc_response` builds the final response.
Exceptions during conversion are caught by `ReviewSchema`'s handler
(modelled by `Except.error` carrying the exception kind). -/

/-- JSON object key lookup (`k in result` / `result[k]`). -/
def jLookup (fields : List (String × Json)) (k : String) : Option Json :=
  (fields.find? (fun p => p.1 == k)).map (·.2)

/-- Truthiness of a JSON number token (Python float/int truthiness of the
parsed value): a non-zero digit makes it truthy, and tokens without digits
(`NaN`, `Infinity`) are truthy. -/
def jsonNumTruthy (raw : String) : Bool :=
  raw.toList.any (fun c => c.isDigit ∧ c ≠ '0') ∨ ¬ raw.toList.any Char.isDigit

/-- Python truthiness of a parsed JSON value. -/
def jsonTruthy : Json → Bool
  | .null => false
  | .bool b => b
  | .num raw => jsonNumTruthy raw
  | .str s => s ≠ ""
  | .arr l => ¬ l.isEmpty
  | .obj f => ¬ f.isEmpty

/-- `_parse_response_node` followed by `execute`'s result projection:
extract JSON text from the provider response and parse it.  `Except.error`
models the re-raised parsing exception. -/
def parse_response (response : String) : Except String Json :=
  match safe_extract_json response with
  | .error e => .error e
  | .ok jstr =>
    match jsonParse jstr with
    | some j => .ok j
    | none => .error "JSONDecodeError"

/-- `SchemaReviewerAgent.review` for a request that reaches the provider
and receives `llm_response`: validation errors and workflow exceptions
become error dicts, otherwise the parsed provider JSON is the result.
Result dicts are represented as `Json`. -/
def agent_review (payload : List (String × PVal)) (llm_response : String) : Json :=
  match parse_and_validate_payload payload with
  | .pok _ _ _ =>
    match parse_response llm_response with
    | .ok j => j
    | .error e =>
      Json.obj [("error", .str "Внутренняя ошибка при анализе схемы"), ("details", .str e)]
  | .perror e d => Json.obj [("error", .str e), ("details", .str d)]
  | .perrorList e d w =>
    Json.obj [("error", .str e), ("details", .arr (d.map .str)),
      ("warnings", .arr (w.map .str))]

/-- The `ReviewSchemaResponse` protobuf message (queries as
`(query_id, query)` pairs; `error` defaults to the empty string). -/
structure GrpcResponse where
  success : Bool
  message : String
  error : String
  ddl : List String
  migrations : List String
  queries : List (String × String)
  warnings : List String

/-- Extending the repeated `warnings` field with a JSON value: a list needs
all-string elements, a string is iterated character by character, a dict is
iterated over its keys; other values raise. -/
def warningsField : Json → Except String (List String)
  | .arr ws =>
    ws.foldr (fun w acc =>
      match w with
      | .str s => acc.map (s :: ·)
      | _ => .error "TypeError") (.ok [])
  | .str s => .ok (s.toList.map (fun c => String.mk [c]))
  | .obj fs => .ok (fs.map (·.1))
  | _ => .error "TypeError"

/-- The `ddl`/`migrations` loops: keep `statement` values of dict items
(which must be strings, or protobuf raises), skip other items. -/
def collectStatements : List Json → Except String (List String)
  | [] => .ok []
  | item :: rest =>
    match item with
    | .obj fs =>
      match jLookup fs "statement" with
      | some (.str s) => (collectStatements rest).map (s :: ·)
      | some _ => .error "TypeError"
      | none => collectStatements rest
    | _ => collectStatements rest

/-- A statement-list field (`if k in result and result[k]` then iterate):
absent or falsy yields nothing; iterating a string or dict yields only
non-dict items (skipped); iterating a number/bool/null raises. -/
def statementsOf : Option Json → Except String (List String)
  | none => .ok []
  | some v =>
    if jsonTruthy v then
      match v with
      | .arr items => collectStatements items
      | .str _ => .ok []
      | .obj _ => .ok []
      | _ => .error "TypeError"
    else .ok []

/-- The `queries` loop: keep `(query_id, query)` of dict items carrying both
keys (values must be strings, or protobuf raises), skip other items. -/
def collectQueryPairs : List Json → Except String (List (String × String))
  | [] => .ok []
  | item :: rest =>
    match item with
    | .obj fs =>
      match jLookup fs "query_id", jLookup fs "query" with
      | some (.str qid), some (.str q) => (collectQueryPairs rest).map ((qid, q) :: ·)
      | some _, some _ => .error "TypeError"
      | _, _ => collectQueryPairs rest
    | _ => collectQueryPairs rest

/-- The `queries` field of the result. -/
def queryPairsOf : Option Json → Except String (List (String × String))
  | none => .ok []
  | some v =>
    if jsonTruthy v then
      match v with
      | .arr items => collectQueryPairs items
      | .str _ => .ok []
      | .obj _ => .ok []
      | _ => .error "TypeError"
    else .ok []

/-- `_convert_result_to_grpc_response`.  Non-dict results follow Python's
`in` semantics: membership on a list compares elements, on a string it is a
substring test, and on any other value it raises `TypeError`; indexing a
list or string with a string key raises `TypeError`. -/
def convert_result_to_grpc (result : Json) : Except String GrpcResponse :=
  match result with
  | .obj fields =>
    match jLookup fields "error" with
    | some ev =>
      match ev with
      | .str e =>
        (match jLookup fields "warnings" with
          | none => Except.ok []
          | some w => warningsField w).map
          (fun ws =>
            { success := false, message := "Validation or processing error", error := e,
              ddl := [], migrations := [], queries := [], warnings := ws })
      | _ => .error "TypeError"
    | none =>
      match statementsOf (jLookup fields "ddl") with
      | .error e => .error e
      | .ok ddl =>
        match statementsOf (jLookup fields "migrations") with
        | .error e => .error e
        | .ok migrations =>
          match queryPairsOf (jLookup fields "queries") with
          | .error e => .error e
          | .ok queries =>
            match (match jLookup fields "warnings" with
              | none => Except.ok []
              | some w => warningsField w) with
            | .error e => .error e
            | .ok warnings =>
              .ok { success := true,
                    message := "Schema review completed successfully",
                    error := "", ddl := ddl, migrations := migrations,
                    queries := queries, warnings := warnings }
  | .arr es =>
    if es.any (fun j => match j with | .str s => s = "error" | _ => false) then
      .error "TypeError"
    else if es.any (fun j => match j with | .str s => s = "ddl" | _ => false) then
      .error "TypeError"
    else if es.any (fun j => match j with | .str s => s = "migrations" | _ => false) then
      .error "TypeError"
    else if es.any (fun j => match j with | .str s => s = "queries" | _ => false) then
      .error "TypeError"
    else if es.any (fun j => match j with | .str s => s = "warnings" | _ => false) then
      .error "TypeError"
    else
      .ok { success := true,
            message := "Schema review completed successfully",
            error := "", ddl := [], migrations := [], queries := [], warnings := [] }
  | .str s =>
    if pyIn "error" s ∨ pyIn "ddl" s ∨ pyIn "migrations" s ∨ pyIn "queries" s ∨
        pyIn "warnings" s then
      .error "TypeError"
    else
      .ok { success := true,
            message := "Schema review completed successfully",
            error := "", ddl := [], migrations := [], queries := [], warnings := [] }
  | _ => .error "TypeError"

/-- `SchemaReviewGRPCService.ReviewSchema` for a request whose provider call
returns `llm_response`: convert the review result, catching exceptions into
the internal-error response. -/
def review_schema (payload : List (String × PVal)) (llm_response : String) : GrpcResponse :=
  match convert_result_to_grpc (agent_review payload llm_response) with
  | .ok r => r
  | .error e =>
    { success := false, message := "Internal server error", error := e,
      ddl := [], migrations := [], queries := [], warnings := [] }

/-! ## Tool report bodies
(`SchemaDiffTool._run`, `DataLineageTool._run`,
`PerformanceAnalysisTool._run`)

Each `_run` wraps its body in `try/except Exception`, returning a
diagnostic string on an internal error.  The diff and lineage bodies
contain no fallible operation, so their `except` clauses are unreachable
and `_run` equals the report.  The performance body converts raw payload
values with `float()` / `int()` and uppercases the query with `.upper()`,
all of which can raise; it is therefore modelled in `Except`.

Python's `set` iteration order in the reports is unspecified; the model
uses first-occurrence order (see the lineage section). -/

/-- The `SchemaDiffTool._run` body: the set differences with their counts,
the migration listing and the breaking-changes listing. -/
def schema_diff_report (current_schema proposed_schema : List String) : String :=
  let addedL := dedupFirst [] (proposed_schema.filter (fun s => ¬ s ∈ current_schema))
  let removedL := dedupFirst [] (current_schema.filter (fun s => ¬ s ∈ proposed_schema))
  let unchangedL := dedupFirst [] (current_schema.filter (fun s => s ∈ proposed_schema))
  let migrations := addedL.map (fun ddl => "-- Добавить\n" ++ ddl) ++
    removedL.map (fun ddl => "-- Удалить\n" ++ ddl)
  let breaking := removedL.filter (fun ddl => pyIn "DROP" ddl ∨ pyIn "ALTER" ddl)
  let result := ["=== СРАВНЕНИЕ СХЕМ ===",
    "Добавлено: " ++ toString addedL.length,
    "Удалено: " ++ toString removedL.length,
    "Без изменений: " ++ toString unchangedL.length] ++
    (if migrations ≠ [] then "\n-- Миграции:" :: migrations else []) ++
    (if breaking ≠ [] then "\n-- Breaking changes:" :: breaking else [])
  String.intercalate "\n" result

/-- `SchemaDiffTool._run`: the body raises nowhere, so the `except` clause
is unreachable and `_run` returns the report for every input. -/
def schema_diff_run (current_schema proposed_schema : List String) : String :=
  schema_diff_report current_schema proposed_schema

/-- `DataLineageTool._run`: as for the diff tool, the body is total. -/
def data_lineage_run (queries : List String) : String :=
  data_lineage_report queries

/-- Regex `\w` (ASCII) for the word-boundary checks of the pattern scans. -/
def isWordChar (c : Char) : Bool :=
  c.isAlphanum ∨ c = '_'

/-- The regex `\b` holds between two (optional) adjacent characters when
exactly one side is a word character. -/
def wordB (prev cur : Option Char) : Bool :=
  (match prev with | some p => isWordChar p | none => false) ≠
    (match cur with | some c => isWordChar c | none => false)

/-- Try `(?:ALT)?\s*JOIN\b` at the current position for one alternative
`alt` (the leading `\b` is checked by the caller); returns the match
length. -/
def tryJoinAlt (alt : List Char) (cs : List Char) : Option Nat :=
  if alt.isPrefixOf cs then
    let afterAlt := cs.drop alt.length
    let spLen := (afterAlt.takeWhile pyIsSpace).length
    let afterSp := afterAlt.dropWhile pyIsSpace
    if "JOIN".toList.isPrefixOf afterSp then
      let total := alt.length + spLen + 4
      if wordB (some 'N') (cs.drop total).head? then some total else none
    else none
  else none

/-- Try the full `\b(?:INNER|LEFT|RIGHT|OUTER)?\s*JOIN\b` at the current
position (regex alternation order, empty alternative last). -/
def tryJoinAt (cs : List Char) (prev : Option Char) : Option Nat :=
  if wordB prev cs.head? then
    match tryJoinAlt "INNER".toList cs with
    | some n => some n
    | none =>
      match tryJoinAlt "LEFT".toList cs with
      | some n => some n
      | none =>
        match tryJoinAlt "RIGHT".toList cs with
        | some n => some n
        | none =>
          match tryJoinAlt "OUTER".toList cs with
          | some n => some n
          | none => tryJoinAlt [] cs
  else none

/-- `len(re.findall(r"\b(?:INNER|LEFT|RIGHT|OUTER)?\s*JOIN\b", text))`:
non-overlapping left-to-right matches.  Fuel-driven; callers pass
`length + 1`. -/
def countJoin : Nat → List Char → Option Char → Nat
  | 0, _, _ => 0
  | _ + 1, [], _ => 0
  | fuel + 1, c :: rest, prev =>
    match tryJoinAt (c :: rest) prev with
    | some n => 1 + countJoin fuel ((c :: rest).drop n) ((c :: rest).take n).getLast?
    | none => countJoin fuel rest (some c)

/-- `\b(?:UPPER|LOWER|SUBSTRING|CONCAT)\s*\(` at the current position. -/
def funcParenAt (fs : List (List Char)) (cs : List Char) (prev : Option Char) : Bool :=
  wordB prev cs.head? ∧
    fs.any (fun f =>
      f.isPrefixOf cs &&
        match (cs.drop f.length).dropWhile pyIsSpace with
        | '(' :: _ => true
        | _ => false)

/-- Scan the `.​*` region (no newline) for a `\b FUNC \s* \(` position. -/
def scanFuncParen (fs : List (List Char)) : Nat → List Char → Option Char → Bool
  | 0, _, _ => false
  | _ + 1, [], _ => false
  | fuel + 1, c :: rest, prev =>
    if funcParenAt fs (c :: rest) prev then true
    else if c = '\n' then false
    else scanFuncParen fs fuel rest (some c)

/-- `re.search(r"WHERE.*\b(?:UPPER|LOWER|SUBSTRING|CONCAT)\s*\(", text)`. -/
def searchWhereFunc : Nat → List Char → Bool
  | 0, _ => false
  | _ + 1, [] => false
  | fuel + 1, c :: rest =>
    (if "WHERE".toList.isPrefixOf (c :: rest) then
      scanFuncParen ["UPPER".toList, "LOWER".toList, "SUBSTRING".toList, "CONCAT".toList]
        (rest.length + 1) ((c :: rest).drop 5) (some 'E')
    else false) ∨ searchWhereFunc fuel rest

/-- `\(\s*SELECT` at the current position (`\s*` may span newlines). -/
def parenSelectAt (cs : List Char) : Bool :=
  match cs with
  | '(' :: rest => "SELECT".toList.isPrefixOf (rest.dropWhile pyIsSpace)
  | _ => false

/-- Scan the `.​*` region (no newline) for a `\(\s*SELECT` position. -/
def scanParenSelect : Nat → List Char → Bool
  | 0, _ => false
  | _ + 1, [] => false
  | fuel + 1, c :: rest =>
    if parenSelectAt (c :: rest) then true
    else if c = '\n' then false
    else scanParenSelect fuel rest

/-- `re.search(r"SELECT.*\(\s*SELECT", text)`. -/
def searchSelectSub : Nat → List Char → Bool
  | 0, _ => false
  | _ + 1, [] => false
  | fuel + 1, c :: rest =>
    (if "SELECT".toList.isPrefixOf (c :: rest) then
      scanParenSelect (rest.length + 1) ((c :: rest).drop 6)
    else false) ∨ searchSelectSub fuel rest

/-- After `\(`, the `.​*\)` tail: a `)` reachable without crossing a
newline. -/
def closeParenReachable : List Char → Bool
  | [] => false
  | ')' :: _ => true
  | '\n' :: _ => false
  | _ :: rest => closeParenReachable rest

/-- `\b(?:COUNT|SUM|AVG|MAX|MIN)\s*\(.*\)` at the current position. -/
def aggAt (cs : List Char) (prev : Option Char) : Bool :=
  wordB prev cs.head? ∧
    ["COUNT".toList, "SUM".toList, "AVG".toList, "MAX".toList, "MIN".toList].any
      (fun f =>
        f.isPrefixOf cs &&
          match (cs.drop f.length).dropWhile pyIsSpace with
          | '(' :: rest2 => closeParenReachable rest2
          | _ => false)

/-- `re.search(r"\b(?:COUNT|SUM|AVG|MAX|MIN)\s*\(.*\)", text)`. -/
def searchAgg : Nat → List Char → Option Char → Bool
  | 0, _, _ => false
  | _ + 1, [], _ => false
  | fuel + 1, c :: rest, prev =>
    aggAt (c :: rest) prev ∨ searchAgg fuel rest (some c)

/-- Model of Python `float(s)` on a string: optional sign, decimal digits
with optional fraction and exponent, taken exactly as a rational.  The IEEE
specials (`nan`/`inf`), digit-group underscores and the rounding of decimal
literals to binary floats are not modelled. -/
def pyFloatOfString (s : String) : Option ℚ :=
  let cs := pyStrip s.toList
  let signRest : ℚ × List Char :=
    match cs with
    | '+' :: r => (1, r)
    | '-' :: r => (-1, r)
    | _ => (1, cs)
  let intD := signRest.2.takeWhile Char.isDigit
  let rest1 := signRest.2.dropWhile Char.isDigit
  let fracPart : Option (List Char × List Char) :=
    match rest1 with
    | '.' :: r => some (r.takeWhile Char.isDigit, r.dropWhile Char.isDigit)
    | _ => some ([], rest1)
  match fracPart with
  | none => none
  | some (fracD, rest2) =>
    if intD = [] ∧ fracD = [] then none
    else
      let expPart : Option (Int × List Char) :=
        match rest2 with
        | e :: r =>
          if e = 'e' ∨ e = 'E' then
            let signDigits : Int × List Char :=
              match r with
              | '+' :: r2 => (1, r2)
              | '-' :: r2 => (-1, r2)
              | _ => (1, r)
            let ds := signDigits.2.takeWhile Char.isDigit
            if ds = [] then none
            else some (signDigits.1 * (digitsVal ds : Int), signDigits.2.dropWhile Char.isDigit)
          else none
        | [] => some (0, [])
      match expPart with
      | none => none
      | some (ex, rest3) =>
        if rest3 = [] then
          some (signRest.1 * ((digitsVal intD : ℚ) + (digitsVal fracD : ℚ) / (10 : ℚ) ^ fracD.length) *
            (10 : ℚ) ^ ex)
        else none

/-- Python `float(v)`; `Except.error` models the raised
`ValueError`/`TypeError`. -/
def pyFloat : PVal → Except String ℚ
  | .pint n => .ok (n : ℚ)
  | .pstr s =>
    match pyFloatOfString s with
    | some q => .ok q
    | none => .error "ValueError"
  | _ => .error "TypeError"

/-- Python `int(v)` with the raised exception kind. -/
def pyIntE : PVal → Except String Int
  | .pint n => .ok n
  | .pstr s =>
    match pyIntOfString s with
    | some n => .ok n
    | none => .error "ValueError"
  | _ => .error "TypeError"

/-- The `QueryMetrics` record built by `PerformanceAnalysisTool._run`
(`query_id` and `query` keep the raw payload values — the dataclass does
not validate types). -/
structure PerfMetrics where
  query_id : PVal
  query : PVal
  execution_time : ℚ
  run_quantity : Int

/-- `total_time = execution_time * run_quantity`. -/
def PerfMetrics.total_time (m : PerfMetrics) : ℚ :=
  m.execution_time * (m.run_quantity : ℚ)

/-- `priority_score` of a metrics record. -/
noncomputable def PerfMetrics.score (m : PerfMetrics) : ℝ :=
  calculate_priority_score (m.execution_time : ℝ) (m.run_quantity : ℝ)

/-- The first loop of the body: one metrics record per query dict, with the
fallible `float()` / `int()` conversions. -/
def perf_metrics_of (q : List (String × PVal)) : Except String PerfMetrics :=
  match pyFloat ((pLookup q "executiontime").getD (PVal.pint 0)) with
  | .error e => .error e
  | .ok et =>
    match pyIntE ((pLookup q "runquantity").getD (PVal.pint 1)) with
    | .error e => .error e
    | .ok rq =>
      .ok { query_id := (pLookup q "query_id").getD (PVal.pstr "unknown"),
            query := (pLookup q "query").getD (PVal.pstr ""),
            execution_time := et, run_quantity := rq }

/-- Convert every query dict, aborting at the first raised conversion. -/
def perf_metrics_list : List (List (String × PVal)) → Except String (List PerfMetrics)
  | [] => .ok []
  | q :: rest =>
    match perf_metrics_of q with
    | .error e => .error e
    | .ok m => (perf_metrics_list rest).map (m :: ·)

open Classical in
/-- Stable insertion keeping `priority_score` descending. -/
noncomputable def insertByScoreDesc (x : PerfMetrics) : List PerfMetrics → List PerfMetrics
  | [] => [x]
  | y :: ys => if y.score ≤ x.score then x :: y :: ys else y :: insertByScoreDesc x ys

/-- `metrics_list.sort(key=lambda x: x.priority_score, reverse=True)`
(Python's sort is stable). -/
noncomputable def sortByScoreDesc : List PerfMetrics → List PerfMetrics
  | [] => []
  | x :: xs => insertByScoreDesc x (sortByScoreDesc xs)

/-- `PerformanceAnalysisTool._analyze_query_patterns` on the uppercased
query text. -/
def analyze_query_patterns (query : String) : List String :=
  let upl := query.toList.map Char.toUpper
  let up := String.mk upl
  (if pyIn "SELECT" up ∧ ¬ pyIn "WHERE" up ∧ ¬ pyIn "LIMIT" up then
    ["full_table_scan"] else []) ++
  (if 3 ≤ countJoin (upl.length + 1) upl none then ["complex_joins"] else []) ++
  (if searchWhereFunc (upl.length + 1) upl then ["functions_in_where"] else []) ++
  (if searchSelectSub (upl.length + 1) upl then ["subquery_in_select"] else []) ++
  (if pyIn "DISTINCT" up ∧ ¬ pyIn "ORDER BY" up then ["unordered_distinct"] else []) ++
  (if searchAgg (upl.length + 1) upl none ∧ ¬ pyIn "GROUP BY" up then
    ["aggregation_without_grouping"] else [])

/-- `_analyze_query_patterns(metrics.query)`: `.upper()` on a non-string
raises `AttributeError`. -/
def analyze_query_patterns_of : PVal → Except String (List String)
  | .pstr s => .ok (analyze_query_patterns s)
  | _ => .error "AttributeError"

/-- A `PerformanceRecommendation` record. -/
structure PerfRec where
  query_id : PVal
  issue_type : String
  description : String
  recommendation : String
  impact : String

/-- The fixed recommendation for one detected issue type (the remaining
issue types yield none). -/
def recOfIssue (qid : PVal) (issue : String) : Option PerfRec :=
  if issue = "full_table_scan" then
    some ⟨qid, "full_table_scan", "Запрос выполняет полное сканирование таблицы",
      "Создать индексы на столбцы для фильтрации без изменения логики запроса", "high"⟩
  else if issue = "complex_joins" then
    some ⟨qid, "complex_joins", "Запрос содержит множественные JOIN операции",
      "Создать составные индексы для JOIN столбцов или партицировать таблицы", "high"⟩
  else if issue = "functions_in_where" then
    some ⟨qid, "functions_in_where",
      "Использование функций в WHERE предотвращает использование индексов",
      "Создать функциональные индексы для выражений в WHERE", "medium"⟩
  else if issue = "subquery_in_select" then
    some ⟨qid, "subquery_in_select",
      "Подзапросы в SELECT могут выполняться для каждой строки",
      "Создать материализованное представление или индексы для подзапросов", "medium"⟩
  else none

/-- `PerformanceAnalysisTool._generate_recommendations`.  `fmtF` models the
f-string rendering of a Python float (external runtime behaviour). -/
def generate_recommendations (fmtF : ℚ → String) (m : PerfMetrics) (issues : List String) :
    List PerfRec :=
  (if 5000 < m.execution_time then
    [⟨m.query_id, "slow_execution",
      "Запрос выполняется " ++ fmtF m.execution_time ++ "мс, что очень медленно",
      "Создать индексы для столбцов в WHERE и JOIN условиях без изменения результата запроса",
      "high"⟩]
   else if 1000 < m.execution_time then
    [⟨m.query_id, "moderate_execution",
      "Запрос выполняется " ++ fmtF m.execution_time ++ "мс",
      "Добавить индексы на столбцы фильтрации и соединений для ускорения без изменения результата",
      "medium"⟩]
   else []) ++
  (if 10000 < m.run_quantity then
    [⟨m.query_id, "high_frequency",
      "Запрос выполняется " ++ toString m.run_quantity ++ " раз",
      "Создать материализованное представление с идентичной структурой результата", "high"⟩]
   else []) ++
  issues.filterMap (recOfIssue m.query_id)

/-- The pattern-scan and recommendation loop over the sorted metrics,
aborting at the first raised `AttributeError`. -/
def perf_recommendations (fmtF : ℚ → String) :
    List PerfMetrics → Except String (List PerfRec)
  | [] => .ok []
  | m :: rest =>
    match analyze_query_patterns_of m.query with
    | .error e => .error e
    | .ok issues =>
      (perf_recommendations fmtF rest).map (generate_recommendations fmtF m issues ++ ·)

/-- One block of the top-5 listing.  `fmt2` models the `:.2f` rendering of
the float score. -/
noncomputable def perf_top_line (fmtF : ℚ → String) (fmt2 : ℝ → String)
    (i : Nat) (m : PerfMetrics) : String :=
  toString i ++ ". Query ID: " ++ pyStrVal m.query_id ++
    "\n   Время выполнения: " ++ fmtF m.execution_time ++ "мс" ++
    "\n   Количество выполнений: " ++ toString m.run_quantity ++
    "\n   Суммарное время: " ++ fmtF m.total_time ++ "мс" ++
    "\n   Приоритет оптимизации: " ++ fmt2 m.score ++ "\n"

/-- `- {query_id}: {description}` / `  Оптимизация схемы: {recommendation}`
lines of one recommendation. -/
def perf_rec_lines (r : PerfRec) : List String :=
  ["- " ++ pyStrVal r.query_id ++ ": " ++ r.description,
   "  Оптимизация схемы: " ++ r.recommendation]

/-- The `try` body of `PerformanceAnalysisTool._run`. -/
noncomputable def performance_body (fmtF : ℚ → String) (fmt2 : ℝ → String)
    (queries : List (List (String × PVal))) : Except String String :=
  match perf_metrics_list queries with
  | .error e => .error e
  | .ok metrics =>
    let sorted := sortByScoreDesc metrics
    match perf_recommendations fmtF sorted with
    | .error e => .error e
    | .ok all_recommendations =>
      let top5 := (sorted.take 5).enum.map
        (fun p => perf_top_line fmtF fmt2 (p.1 + 1) p.2)
      let total_queries := sorted.length
      let slow_queries := (sorted.filter (fun m => 1000 < m.execution_time)).length
      let frequent_queries := (sorted.filter (fun m => 1000 < m.run_quantity)).length
      let high_impact := all_recommendations.filter (fun r => r.impact = "high")
      let medium_impact := all_recommendations.filter (fun r => r.impact = "medium")
      let recLines :=
        if all_recommendations.isEmpty then ["\nВсе запросы работают оптимально!"]
        else
          ["\nРЕКОМЕНДАЦИИ ПО ОПТИМИЗАЦИИ СХЕМЫ (БЕЗ ИЗМЕНЕНИЯ ЗАПРОСОВ):"] ++
          (if high_impact.isEmpty then []
           else ("\nВЫСОКИЙ ПРИОРИТЕТ (" ++ toString high_impact.length ++ "):") ::
              ((high_impact.take 10).map perf_rec_lines).flatten) ++
          (if medium_impact.isEmpty then []
           else ("\nСРЕДНИЙ ПРИОРИТЕТ (" ++ toString medium_impact.length ++ "):") ::
              ((medium_impact.take 5).map perf_rec_lines).flatten)
      .ok (String.intercalate "\n"
        (["=== АНАЛИЗ ПРОИЗВОДИТЕЛЬНОСТИ SQL ЗАПРОСОВ ===\n",
          "⚠️ ВАЖНО: Оптимизируем только СХЕМУ БД, не изменяя SQL запросы!",
          "Результаты запросов (столбцы, записи) должны остаться идентичными.\n",
          "ТОП-5 ЗАПРОСОВ ДЛЯ ОПТИМИЗАЦИИ (по приоритету):"] ++
         top5 ++
         ["\nОБЩАЯ СТАТИСТИКА:",
          "- Всего запросов: " ++ toString total_queries,
          "- Медленных запросов (>1с): " ++ toString slow_queries,
          "- Частых запросов (>1000 раз): " ++ toString frequent_queries] ++
         recLines ++
         ["\n📋 ПРИНЦИП: Все рекомендации направлены на изменение схемы БД",
          "(индексы, партиции, мат.представления) без изменения SQL запросов."]))

/-- `PerformanceAnalysisTool._run`: the `try/except` wrapper around the
body. -/
noncomputable def performance_run (fmtF : ℚ → String) (fmt2 : ℝ → String)
    (queries : List (List (String × PVal))) : String :=
  match performance_body fmtF fmt2 queries with
  | .ok s => s
  | .error e => "Ошибка при анализе производительности: " ++ e

/-! ### Concrete request fixtures used by the theorems below -/

/-- A well-formed query dict with a negative `runquantity`. -/
def fixture_neg_query : PVal :=
  .pdict [("query_id", .pstr "q1"), ("query", .pstr "SELECT 1"),
    ("runquantity", .pint (-5)), ("executiontime", .pint 10)]

/-- A well-formed payload whose single query has a negative `runquantity`. -/
def fixture_payload : List (String × PVal) :=
  [("url", .pstr "u"), ("ddl", .plist [.pstr "CREATE TABLE t (a int)"]),
   ("queries", .plist [fixture_neg_query])]

/-- The same payload with the query duplicated (duplicate `query_id`). -/
def fixture_dup_payload : List (String × PVal) :=
  [("url", .pstr "u"), ("ddl", .plist [.pstr "CREATE TABLE t (a int)"]),
   ("queries", .plist [fixture_neg_query, fixture_neg_query])]

/-- A provider response proposing nothing. -/
def fixture_empty_response : String :=
  "\x7b\"ddl\": [], \"migrations\": [], \"queries\": []\x7d"

/-- A provider response whose queries entry carries an invented id. -/
def fixture_invented_response : String :=
  "\x7b\"queries\": [\x7b\"query_id\": \"q2\", \"query\": \"SELECT 2\"\x7d]\x7d"

/-- A payload with two malformed DDL elements. -/
def fixture_two_bad_ddl : List (String × PVal) :=
  [("url", .pstr "u"), ("ddl", .plist [.pint 1, .pint 2]),
   ("queries", .plist [fixture_neg_query])]

/-- The same payload with only the second DDL element malformed. -/
def fixture_one_bad_ddl : List (String × PVal) :=
  [("url", .pstr "u"), ("ddl", .plist [.pstr "CREATE TABLE t (a int)", .pint 2]),
   ("queries", .plist [fixture_neg_query])]

end TrinoReviewer

namespace TrinoReviewer

theorem cntDelim_nil (op cl : Char) : cntDelim op cl [] = 0 := rfl

theorem cntDelim_cons_op (op cl : Char) (hop : op ≠ cl) (l : List Char) :
    cntDelim op cl (op :: l) = cntDelim op cl l + 1 := by
  have h : ¬ (cl = op) := fun h => hop h.symm
  simp [cntDelim, List.count_cons, h]
  omega

theorem cntDelim_cons_cl (op cl : Char) (hop : op ≠ cl) (l : List Char) :
    cntDelim op cl (cl :: l) = cntDelim op cl l - 1 := by
  simp [cntDelim, List.count_cons, hop]
  omega

theorem cntDelim_cons_other (op cl c : Char) (h1 : c ≠ op) (h2 : c ≠ cl) (l : List Char) :
    cntDelim op cl (c :: l) = cntDelim op cl l := by
  have h1' : ¬ (op = c) := fun h => h1 h.symm
  have h2' : ¬ (cl = c) := fun h => h2 h.symm
  simp [cntDelim, List.count_cons, h1', h2']

/-- Characters that are neither delimiter pass through the scan without
changing the (inactive) state. -/
theorem scanDelim_skip (op cl : Char) :
    ∀ (l : List Char), (∀ c ∈ l, c ≠ op ∧ c ≠ cl) →
    ∀ (rest : List Char) (count : Int) (acc : List String),
      scanDelim op cl (l ++ rest) count none acc = scanDelim op cl rest count none acc := by
  intro l
  induction l with
  | nil => intro _ rest count acc; rfl
  | cons c t ih =>
    intro h rest count acc
    have hc := h c (List.mem_cons_self c t)
    have step : scanDelim op cl ((c :: t) ++ rest) count none acc =
        scanDelim op cl (t ++ rest) count none acc := by
      simp [scanDelim, hc.1, hc.2]
    rw [step, ih (fun d hd => h d (List.mem_cons_of_mem _ hd)) rest count acc]

/-- Scanning a balanced candidate body: with the scan inside a candidate
(positive counter, active buffer) and a remainder `t` that closes the
candidate exactly at its end, the scan emits the buffered candidate and
returns to the inactive state. -/
theorem scanDelim_emit (op cl : Char) (hop : op ≠ cl) :
    ∀ (t : List Char) (count : Int) (b : List Char) (rest : List Char) (acc : List String),
      0 < count →
      count + cntDelim op cl t = 0 →
      (∀ p, p <+: t → p ≠ t → 0 < count + cntDelim op cl p) →
      scanDelim op cl (t ++ rest) count (some b) acc =
        scanDelim op cl rest 0 none (String.mk (b ++ t) :: acc) := by
  intro t
  induction t with
  | nil =>
    intro count b rest acc hcpos hc _
    exfalso
    rw [cntDelim_nil] at hc
    omega
  | cons c t' ih =>
    intro count b rest acc hcpos hc hpre
    by_cases hcop : c = op
    · rw [hcop] at hc hpre ⊢
      have hcount0 : ¬ (count = 0) := by omega
      have step : scanDelim op cl ((op :: t') ++ rest) count (some b) acc =
          scanDelim op cl (t' ++ rest) (count + 1) (some (b ++ [op])) acc := by
        simp [scanDelim, hcount0]
      rw [step]
      have hc' : (count + 1) + cntDelim op cl t' = 0 := by
        rw [cntDelim_cons_op op cl hop t'] at hc; omega
      have hpre' : ∀ p, p <+: t' → p ≠ t' → 0 < (count + 1) + cntDelim op cl p := by
        intro p hp hne
        have h := hpre (op :: p) (List.cons_prefix_cons.mpr ⟨rfl, hp⟩) (by simpa using hne)
        rw [cntDelim_cons_op op cl hop p] at h
        omega
      rw [ih (count + 1) (b ++ [op]) rest acc (by omega) hc' hpre']
      simp
    · by_cases hccl : c = cl
      · rw [hccl] at hc hpre ⊢
        have hclop : ¬ (cl = op) := fun h => hop h.symm
        by_cases hone : count - 1 = 0
        · have ht' : t' = [] := by
            cases t' with
            | nil => rfl
            | cons d t'' =>
              exfalso
              have h := hpre [cl] ⟨d :: t'', rfl⟩ (by simp)
              rw [cntDelim_cons_cl op cl hop [], cntDelim_nil] at h
              omega
          subst ht'
          have step : scanDelim op cl ((cl :: ([] : List Char)) ++ rest) count (some b) acc =
              scanDelim op cl rest (count - 1) none (String.mk (b ++ [cl]) :: acc) := by
            simp [scanDelim, hclop, hone]
          rw [step, hone]
        · have step : scanDelim op cl ((cl :: t') ++ rest) count (some b) acc =
              scanDelim op cl (t' ++ rest) (count - 1) (some (b ++ [cl])) acc := by
            simp [scanDelim, hclop, hone]
          rw [step]
          have hc' : (count - 1) + cntDelim op cl t' = 0 := by
            rw [cntDelim_cons_cl op cl hop t'] at hc; omega
          have hpre' : ∀ p, p <+: t' → p ≠ t' → 0 < (count - 1) + cntDelim op cl p := by
            intro p hp hne
            have h := hpre (cl :: p) (List.cons_prefix_cons.mpr ⟨rfl, hp⟩) (by simpa using hne)
            rw [cntDelim_cons_cl op cl hop p] at h
            omega
          rw [ih (count - 1) (b ++ [cl]) rest acc (by omega) hc' hpre']
          simp
      · have step : scanDelim op cl ((c :: t') ++ rest) count (some b) acc =
            scanDelim op cl (t' ++ rest) count (some (b ++ [c])) acc := by
          simp [scanDelim, hcop, hccl]
        rw [step]
        have hc' : count + cntDelim op cl t' = 0 := by
          rw [cntDelim_cons_other op cl c hcop hccl t'] at hc; omega
        have hpre' : ∀ p, p <+: t' → p ≠ t' → 0 < count + cntDelim op cl p := by
          intro p hp hne
          have h := hpre (c :: p) (List.cons_prefix_cons.mpr ⟨rfl, hp⟩) (by simpa using hne)
          rw [cntDelim_cons_other op cl c hcop hccl p] at h
          omega
        rw [ih count (b ++ [c]) rest acc hcpos hc' hpre']
        simp

/-- A brace-balanced substring whose proper prefixes all have positive brace
depth, surrounded by brace-free text, is the unique candidate found by the
brace scan. -/
theorem scanDelim_embedded (op cl : Char) (hop : op ≠ cl) (pre s post : List Char)
    (hpre : ∀ c ∈ pre, c ≠ op ∧ c ≠ cl)
    (hpost : ∀ c ∈ post, c ≠ op ∧ c ≠ cl)
    (hhead : ∃ t, s = op :: t)
    (hbal : cntDelim op cl s = 0)
    (hpos : ∀ p, p <+: s → p ≠ [] → p ≠ s → 0 < cntDelim op cl p) :
    scanDelim op cl (pre ++ s ++ post) 0 none [] = [String.mk s] := by
  obtain ⟨t, rfl⟩ := hhead
  rw [List.append_assoc, scanDelim_skip op cl pre hpre]
  have step : scanDelim op cl ((op :: t) ++ post) 0 none [] =
      scanDelim op cl (t ++ post) 1 (some [op]) [] := by
    simp [scanDelim]
  rw [step]
  have hc : (1 : Int) + cntDelim op cl t = 0 := by
    rw [cntDelim_cons_op op cl hop t] at hbal; omega
  have hpre' : ∀ p, p <+: t → p ≠ t → 0 < (1 : Int) + cntDelim op cl p := by
    intro p hp hne
    have h := hpos (op :: p) (List.cons_prefix_cons.mpr ⟨rfl, hp⟩)
      (List.cons_ne_nil op p) (by simpa using hne)
    rw [cntDelim_cons_op op cl hop p] at h
    omega
  rw [scanDelim_emit op cl hop t 1 [op] post [] (by omega) hc hpre']
  have hskip := scanDelim_skip op cl post hpost [] 0 [String.mk ([op] ++ t)]
  rw [List.append_nil] at hskip
  rw [hskip]
  rfl

theorem dedupFirst_mem (x : String) : ∀ (l seen : List String),
    x ∈ dedupFirst seen l ↔ (x ∈ l ∧ x ∉ seen) := by
  intro l
  induction l with
  | nil => intro seen; simp [dedupFirst]
  | cons y ys ih =>
    intro seen
    by_cases h : y ∈ seen
    · rw [dedupFirst, if_pos h, ih seen]
      constructor
      · rintro ⟨h1, h2⟩
        exact ⟨List.mem_cons_of_mem _ h1, h2⟩
      · rintro ⟨h1, h2⟩
        rcases List.mem_cons.mp h1 with rfl | h1
        · exact absurd h h2
        · exact ⟨h1, h2⟩
    · rw [dedupFirst, if_neg h]
      constructor
      · intro hx
        rcases List.mem_cons.mp hx with rfl | hx
        · exact ⟨List.mem_cons_self _ _, h⟩
        · rw [ih (y :: seen)] at hx
          exact ⟨List.mem_cons_of_mem _ hx.1, fun hs => hx.2 (List.mem_cons_of_mem _ hs)⟩
      · rintro ⟨h1, h2⟩
        rcases List.mem_cons.mp h1 with rfl | h1
        · exact List.mem_cons_self _ _
        · by_cases hxy : x = y
          · subst hxy; exact List.mem_cons_self _ _
          · exact List.mem_cons_of_mem _
              ((ih (y :: seen)).mpr ⟨h1, fun hs => (List.mem_cons.mp hs).elim hxy h2⟩)

theorem extract_tables_mem (t : String) (q : String) :
    t ∈ extract_tables q ↔ t ∈ extract_from_tables q ∨ t ∈ extract_join_tables q := by
  rw [extract_tables, dedupFirst_mem]
  simp [List.mem_append]

theorem lineage_keys_mem (t : String) (queries : List String) :
    t ∈ lineage_keys queries ↔
      ∃ q ∈ queries, t ∈ extract_from_tables q ∨ t ∈ extract_join_tables q := by
  rw [lineage_keys, dedupFirst_mem]
  simp only [List.mem_flatten, List.mem_map, List.not_mem_nil, not_false_iff, and_true]
  constructor
  · rintro ⟨_, ⟨q, hq, rfl⟩, ht⟩
    exact ⟨q, hq, (extract_tables_mem t q).mp ht⟩
  · rintro ⟨q, hq, ht⟩
    exact ⟨extract_tables q, ⟨q, hq, rfl⟩, (extract_tables_mem t q).mpr ht⟩

theorem lineage_deps_mem (u t : String) : ∀ queries : List String,
    u ∈ lineage_deps queries t ↔
      ∃ q ∈ queries, t ∈ extract_tables q ∧ u ∈ extract_join_tables q := by
  intro queries
  induction queries with
  | nil => simp [lineage_deps]
  | cons q rest ih =>
    by_cases h : t ∈ extract_tables q
    · simp only [lineage_deps, if_pos h, Finset.mem_union, List.mem_toFinset, ih,
        List.mem_cons]
      constructor
      · rintro (hu | ⟨q', hq', ht', hu'⟩)
        · exact ⟨q, Or.inl rfl, h, hu⟩
        · exact ⟨q', Or.inr hq', ht', hu'⟩
      · rintro ⟨q', hq' | hq', ht', hu'⟩
        · subst hq'; exact Or.inl hu'
        · exact Or.inr ⟨q', hq', ht', hu'⟩
    · simp only [lineage_deps, if_neg h, Finset.empty_union, ih, List.mem_cons]
      constructor
      · rintro ⟨q', hq', ht', hu'⟩
        exact ⟨q', Or.inr hq', ht', hu'⟩
      · rintro ⟨q', hq' | hq', ht', hu'⟩
        · subst hq'; exact absurd ht' h
        · exact ⟨q', hq', ht', hu'⟩

theorem insertByDegDesc_perm (deg : String → Nat) (x : String) :
    ∀ l, (insertByDegDesc deg x l).Perm (x :: l) := by
  intro l
  induction l with
  | nil => exact List.Perm.refl _
  | cons y ys ih =>
    rw [insertByDegDesc]
    by_cases h : deg y ≤ deg x
    · rw [if_pos h]
    · rw [if_neg h]
      exact (ih.cons y).trans (List.Perm.swap x y ys)

theorem sortByDegDesc_perm (deg : String → Nat) :
    ∀ l, (sortByDegDesc deg l).Perm l := by
  intro l
  induction l with
  | nil => exact List.Perm.refl _
  | cons x xs ih =>
    rw [sortByDegDesc]
    exact (insertByDegDesc_perm deg x (sortByDegDesc deg xs)).trans (ih.cons x)

theorem insertByDegDesc_sorted (deg : String → Nat) (x : String) :
    ∀ l, l.Pairwise (fun a b => deg b ≤ deg a) →
      (insertByDegDesc deg x l).Pairwise (fun a b => deg b ≤ deg a) := by
  intro l
  induction l with
  | nil => intro _; simp [insertByDegDesc]
  | cons y ys ih =>
    intro h
    rcases List.pairwise_cons.mp h with ⟨hy, hys⟩
    rw [insertByDegDesc]
    by_cases hxy : deg y ≤ deg x
    · rw [if_pos hxy]
      refine List.pairwise_cons.mpr ⟨?_, h⟩
      intro b hb
      rcases List.mem_cons.mp hb with rfl | hb
      · exact hxy
      · exact le_trans (hy b hb) hxy
    · rw [if_neg hxy]
      refine List.pairwise_cons.mpr ⟨?_, ih hys⟩
      intro b hb
      rcases List.mem_cons.mp ((insertByDegDesc_perm deg x ys).mem_iff.mp hb) with rfl | hb'
      · omega
      · exact hy b hb'

theorem sortByDegDesc_sorted (deg : String → Nat) :
    ∀ l, (sortByDegDesc deg l).Pairwise (fun a b => deg b ≤ deg a) := by
  intro l
  induction l with
  | nil => exact List.Pairwise.nil
  | cons x xs ih => exact insertByDegDesc_sorted deg x _ ih

theorem ddl_item_errors_ok : ∀ (ddl : List PVal) (i : Nat),
    (∀ d ∈ ddl, ∃ s, d = PVal.pstr s ∧ pyStrip s.toList ≠ []) →
    ddl_item_errors ddl i = Except.ok [] := by
  intro ddl
  induction ddl with
  | nil => intro i _; rfl
  | cons d rest ih =>
    intro i h
    obtain ⟨s, rfl, hs⟩ := h d (List.mem_cons_self d rest)
    rw [ddl_item_errors, ih (i + 1) (fun d hd => h d (List.mem_cons_of_mem _ hd))]
    simp only [Except.map, if_neg hs, List.nil_append]

theorem query_errs_nil : ∀ (qs : List PyQuery) (i : Nat) (seen : List String),
    (∀ q ∈ qs, pyStrip q.query_id.toList ≠ [] ∧ pyStrip q.query.toList ≠ []) →
    (qs.map (·.query_id)).Nodup →
    (∀ q ∈ qs, q.query_id ∉ seen) →
    query_errs qs i seen = [] := by
  intro qs
  induction qs with
  | nil => intro i seen _ _ _; rfl
  | cons q rest ih =>
    intro i seen h hnodup hseen
    have hq := h q (List.mem_cons_self q rest)
    have hqseen : q.query_id ∉ seen := hseen q (List.mem_cons_self q rest)
    have hnd : q.query_id ∉ rest.map (·.query_id) ∧ (rest.map (·.query_id)).Nodup := by
      rw [List.map_cons, List.nodup_cons] at hnodup
      exact hnodup
    rw [query_errs]
    simp only [if_neg hq.1, if_neg hqseen, if_neg hq.2, List.nil_append]
    apply ih (i + 1) (q.query_id :: seen)
      (fun p hp => h p (List.mem_cons_of_mem _ hp)) hnd.2
    intro p hp hmem
    rcases List.mem_cons.mp hmem with heq | hm
    · exact hnd.1 (heq ▸ List.mem_map_of_mem (·.query_id) hp)
    · exact hseen p (List.mem_cons_of_mem _ hp) hm

theorem query_warns_ne_nil : ∀ (qs : List PyQuery) (q : PyQuery), q ∈ qs →
    (q.runquantity < 0 ∨ q.executiontime < 0) → query_warns qs ≠ [] := by
  intro qs
  induction qs with
  | nil => intro q hq; exact absurd hq (List.not_mem_nil q)
  | cons p rest ih =>
    intro q hq hneg
    rcases List.mem_cons.mp hq with rfl | hq
    · rw [query_warns]
      rcases hneg with h | h
      · rw [if_pos h]
        simp
      · rw [if_pos h]
        simp [List.append_eq_nil]
    · rw [query_warns]
      have := ih q hq hneg
      simp [List.append_eq_nil]
      intro _ _
      exact this

theorem parse_ddl_items_error_at : ∀ (good : List PVal) (bad : PVal) (rest : List PVal) (k : Nat),
    (∀ g ∈ good, goodDDLItem g = true) → goodDDLItem bad = false →
    parse_ddl_items (good ++ bad :: rest) k =
      Except.error ("Неверный элемент DDL на индексе " ++ toString (k + good.length),
        "Элементы DDL должны иметь поле 'statement' или быть строками") := by
  intro good
  induction good with
  | nil =>
    intro bad rest k _ hbad
    simp only [List.nil_append, List.length_nil, Nat.add_zero]
    cases bad with
    | pstr s => exact absurd hbad (by simp [goodDDLItem])
    | pdict fs =>
      cases hl : pLookup fs "statement" with
      | some v =>
        rw [goodDDLItem, hl] at hbad
        simp at hbad
      | none => simp [parse_ddl_items, hl]
    | pint n => simp [parse_ddl_items]
    | plist xs => simp [parse_ddl_items]
  | cons g good' ih =>
    intro bad rest k hgood hbad
    have hg := hgood g (List.mem_cons_self g good')
    have hrec := ih bad rest (k + 1) (fun p hp => hgood p (List.mem_cons_of_mem _ hp)) hbad
    have harith : k + 1 + good'.length = k + (g :: good').length := by
      simp [List.length_cons]
      omega
    rw [harith] at hrec
    cases g with
    | pstr s =>
      simp only [List.cons_append, parse_ddl_items, List.append_eq]
      rw [hrec]
      simp [Except.map]
    | pdict fs =>
      obtain ⟨v, hv⟩ := Option.isSome_iff_exists.mp (by rw [goodDDLItem] at hg; exact hg)
      simp only [List.cons_append, parse_ddl_items, hv, List.append_eq]
      rw [hrec]
      simp [Except.map]
    | pint n => exact absurd hg (by simp [goodDDLItem])
    | plist xs => exact absurd hg (by simp [goodDDLItem])

theorem collectQueryPairs_mem : ∀ (items : List Json) (pairs : List (String × String)),
    collectQueryPairs items = Except.ok pairs →
    ∀ qid q, (qid, q) ∈ pairs →
    ∃ fs, Json.obj fs ∈ items ∧ jLookup fs "query_id" = some (Json.str qid) ∧
      jLookup fs "query" = some (Json.str q) := by
  intro items
  induction items with
  | nil =>
    intro pairs h qid q hm
    rw [collectQueryPairs] at h
    obtain rfl := Except.ok.inj h
    exact absurd hm (List.not_mem_nil _)
  | cons item rest ih =>
    intro pairs h qid q hm
    cases item
    case obj fs =>
      rw [collectQueryPairs] at h
      cases h1 : jLookup fs "query_id" <;> rw [h1] at h
      case none =>
        change collectQueryPairs rest = Except.ok pairs at h
        obtain ⟨fs', hmem, hq1, hq2⟩ := ih pairs h qid q hm
        exact ⟨fs', List.mem_cons_of_mem _ hmem, hq1, hq2⟩
      case some v1 =>
        cases h2 : jLookup fs "query" <;> rw [h2] at h
        case none =>
          cases v1 <;>
            (change collectQueryPairs rest = Except.ok pairs at h
             obtain ⟨fs', hmem, hq1, hq2⟩ := ih pairs h qid q hm
             exact ⟨fs', List.mem_cons_of_mem _ hmem, hq1, hq2⟩)
        case some v2 =>
          cases v1 <;> cases v2 <;>
            first
            | (rename_i s1 s2
               change (collectQueryPairs rest).map ((s1, s2) :: ·) = Except.ok pairs at h
               cases hr : collectQueryPairs rest with
               | error e =>
                 rw [hr] at h
                 exact absurd h (by simp [Except.map])
               | ok ps =>
                 rw [hr] at h
                 simp only [Except.map] at h
                 obtain rfl := Except.ok.inj h
                 rcases List.mem_cons.mp hm with heq | hmm2
                 · obtain ⟨rfl, rfl⟩ := Prod.mk.inj heq
                   exact ⟨fs, List.mem_cons_self _ _, h1, h2⟩
                 · obtain ⟨fs', hmem, hq1, hq2⟩ := ih ps hr qid q hmm2
                   exact ⟨fs', List.mem_cons_of_mem _ hmem, hq1, hq2⟩)
            | exact absurd h (by simp)
    all_goals
      change collectQueryPairs rest = Except.ok pairs at h
      obtain ⟨fs', hmem, hq1, hq2⟩ := ih pairs h qid q hm
      exact ⟨fs', List.mem_cons_of_mem _ hmem, hq1, hq2⟩

theorem queryPairsOf_some (v : Json) :
    queryPairsOf (some v) =
      if jsonTruthy v = true then
        match v with
        | .arr items => collectQueryPairs items
        | .str _ => Except.ok []
        | .obj _ => Except.ok []
        | _ => Except.error "TypeError"
      else Except.ok [] := by
  cases v <;> rfl

theorem queryPairsOf_mem (v : Option Json) (pairs : List (String × String))
    (h : queryPairsOf v = Except.ok pairs) (qid q : String)
    (hm : (qid, q) ∈ pairs) :
    ∃ items fs, v = some (Json.arr items) ∧ Json.obj fs ∈ items ∧
      jLookup fs "query_id" = some (Json.str qid) ∧
      jLookup fs "query" = some (Json.str q) := by
  cases v with
  | none =>
    change Except.ok [] = Except.ok pairs at h
    obtain rfl := Except.ok.inj h
    exact absurd hm (List.not_mem_nil _)
  | some j =>
    rw [queryPairsOf_some] at h
    by_cases ht : jsonTruthy j = true
    · rw [if_pos ht] at h
      cases j with
      | arr items =>
        change collectQueryPairs items = Except.ok pairs at h
        obtain ⟨fs, hmem, h1, h2⟩ := collectQueryPairs_mem items pairs h qid q hm
        exact ⟨items, fs, rfl, hmem, h1, h2⟩
      | str s =>
        change Except.ok [] = Except.ok pairs at h
        obtain rfl := Except.ok.inj h
        exact absurd hm (List.not_mem_nil _)
      | obj fs =>
        change Except.ok [] = Except.ok pairs at h
        obtain rfl := Except.ok.inj h
        exact absurd hm (List.not_mem_nil _)
      | null =>
        change Except.error "TypeError" = Except.ok pairs at h
        exact absurd h (by simp)
      | bool b =>
        change Except.error "TypeError" = Except.ok pairs at h
        exact absurd h (by simp)
      | num raw =>
        change Except.error "TypeError" = Except.ok pairs at h
        exact absurd h (by simp)
    · rw [if_neg ht] at h
      obtain rfl := Except.ok.inj h
      exact absurd hm (List.not_mem_nil _)

theorem convert_result_queries_from (j : Json) (r : GrpcResponse)
    (h : convert_result_to_grpc j = Except.ok r) (qid q : String)
    (hm : (qid, q) ∈ r.queries) :
    ∃ fields items fs, j = Json.obj fields ∧
      jLookup fields "queries" = some (Json.arr items) ∧
      Json.obj fs ∈ items ∧ jLookup fs "query_id" = some (Json.str qid) ∧
      jLookup fs "query" = some (Json.str q) := by
  cases j with
  | obj fields =>
    rw [convert_result_to_grpc] at h
    cases he : jLookup fields "error" <;> rw [he] at h
    case some ev =>
      cases ev <;>
        first
        | (rename_i e
           change (match jLookup fields "warnings" with
             | none => Except.ok []
             | some w => warningsField w).map
             (fun ws =>
               { success := false, message := "Validation or processing error", error := e,
                 ddl := [], migrations := [], queries := [], warnings := ws }) =
             Except.ok r at h
           cases hw : (match jLookup fields "warnings" with
             | none => Except.ok []
             | some w => warningsField w) with
           | error e2 =>
             rw [hw] at h
             exact absurd h (by simp [Except.map])
           | ok ws =>
             rw [hw] at h
             simp only [Except.map] at h
             obtain rfl := Except.ok.inj h
             exact absurd hm (List.not_mem_nil _))
        | exact absurd h (by simp)
    case none =>
      cases hd : statementsOf (jLookup fields "ddl") <;> rw [hd] at h
      case error e => exact absurd h (by simp)
      case ok ddl =>
        cases hmg : statementsOf (jLookup fields "migrations") <;> rw [hmg] at h
        case error e => exact absurd h (by simp)
        case ok migrations =>
          cases hqs : queryPairsOf (jLookup fields "queries") <;> rw [hqs] at h
          case error e => exact absurd h (by simp)
          case ok qs =>
            cases hw : (match jLookup fields "warnings" with
              | none => Except.ok []
              | some w => warningsField w) <;> rw [hw] at h
            case error e => exact absurd h (by simp)
            case ok ws =>
              obtain rfl := Except.ok.inj h
              obtain ⟨items, fs, hv, hmem, h1, h2⟩ := queryPairsOf_mem _ qs hqs qid q hm
              exact ⟨fields, items, fs, rfl, hv, hmem, h1, h2⟩
  | arr es =>
    rw [convert_result_to_grpc] at h
    split_ifs at h
    obtain rfl := Except.ok.inj h
    exact absurd hm (List.not_mem_nil _)
  | str s =>
    rw [convert_result_to_grpc] at h
    split_ifs at h
    obtain rfl := Except.ok.inj h
    exact absurd hm (List.not_mem_nil _)
  | null => exact absurd h (by simp [convert_result_to_grpc])
  | bool b => exact absurd h (by simp [convert_result_to_grpc])
  | num raw => exact absurd h (by simp [convert_result_to_grpc])

theorem warningsField_strs : ∀ w : List String,
    warningsField (Json.arr (w.map Json.str)) = Except.ok w := by
  intro w
  induction w with
  | nil => rfl
  | cons s rest ih =>
    show (warningsField (Json.arr (rest.map Json.str))).map (s :: ·) = Except.ok (s :: rest)
    rw [ih]
    rfl

/-- `_validate_json_candidates` returns the first candidate accepted by the
JSON parser, i.e. `List.find?`. -/
theorem validate_json_candidates_eq_find (l : List String) :
    validate_json_candidates l = l.find? jsonValid := by
  induction l with
  | nil => rfl
  | cons c rest ih =>
    by_cases h : jsonValid c <;> simp [validate_json_candidates, List.find?, h, ih]

/-- C5: For every pair of DDL statement lists A and B, the schema diff satisfies
`added(A,B) == removed(B,A)`, and `diff(A,A)` yields empty added and removed
sets with unchanged equal to the set of statements of A. -/
theorem schema_diff_symmetry_and_idempotence :
    (∀ A B : List String, schemaDiffAdded A B = schemaDiffRemoved B A) ∧
    (∀ A : List String,
      schemaDiffAdded A A = ∅ ∧ schemaDiffRemoved A A = ∅ ∧
      schemaDiffUnchanged A A = A.toFinset) := by
  constructor
  · intro A B
    rfl
  · intro A
    refine ⟨?_, ?_, ?_⟩
    · simp [schemaDiffAdded]
    · simp [schemaDiffRemoved]
    · simp [schemaDiffUnchanged]

/-- C4: `priority_score = (execution_time * run_quantity^0.7) / 1000` is
monotonically non-decreasing in `execution_time` for fixed `run_quantity`
(both positive), monotonically non-decreasing in `run_quantity` for fixed
`execution_time`, and equals 0 whenever either input is `≤ 0`. -/
theorem priority_score_monotone_and_zero :
    (∀ e₁ e₂ r : ℝ, 0 < e₁ → e₁ ≤ e₂ → 0 < r →
      calculate_priority_score e₁ r ≤ calculate_priority_score e₂ r) ∧
    (∀ e r₁ r₂ : ℝ, 0 < e → 0 < r₁ → r₁ ≤ r₂ →
      calculate_priority_score e r₁ ≤ calculate_priority_score e r₂) ∧
    (∀ e r : ℝ, e ≤ 0 ∨ r ≤ 0 → calculate_priority_score e r = 0) := by
  refine ⟨?_, ?_, ?_⟩
  · intro e₁ e₂ r he₁ he hr
    have h₁ : ¬(e₁ ≤ 0 ∨ r ≤ 0) := by push_neg; exact ⟨he₁, hr⟩
    have h₂ : ¬(e₂ ≤ 0 ∨ r ≤ 0) := by push_neg; exact ⟨lt_of_lt_of_le he₁ he, hr⟩
    rw [calculate_priority_score, calculate_priority_score, if_neg h₁, if_neg h₂]
    have hpow : (0 : ℝ) ≤ r ^ (0.7 : ℝ) := Real.rpow_nonneg hr.le _
    gcongr
  · intro e r₁ r₂ he hr₁ hr
    have h₁ : ¬(e ≤ 0 ∨ r₁ ≤ 0) := by push_neg; exact ⟨he, hr₁⟩
    have h₂ : ¬(e ≤ 0 ∨ r₂ ≤ 0) := by push_neg; exact ⟨he, lt_of_lt_of_le hr₁ hr⟩
    rw [calculate_priority_score, calculate_priority_score, if_neg h₁, if_neg h₂]
    have hpow : r₁ ^ (0.7 : ℝ) ≤ r₂ ^ (0.7 : ℝ) :=
      Real.rpow_le_rpow hr₁.le hr (by norm_num)
    gcongr
  · intro e r h
    rw [calculate_priority_score, if_pos h]

/-- Witness for C4 at concrete inputs. -/
theorem priority_score_monotone_and_zero_witness :
    calculate_priority_score 1 5 ≤ calculate_priority_score 2 5 ∧
    calculate_priority_score 3 1 ≤ calculate_priority_score 3 4 ∧
    calculate_priority_score (-1) 5 = 0 :=
  ⟨priority_score_monotone_and_zero.1 1 2 5 (by norm_num) (by norm_num) (by norm_num),
   priority_score_monotone_and_zero.2.1 3 1 4 (by norm_num) (by norm_num) (by norm_num),
   priority_score_monotone_and_zero.2.2 (-1) 5 (Or.inl (by norm_num))⟩

/-- C6 (counterexample): the extractor does not try candidates in the order
their closing character appears.  For the text `[1, 2] {"a": 1}` the array's
`]` closes before the object's `}` and both fragments are valid JSON, so the
claimed order would return `[1, 2]`; the implementation collects all `{...}`
candidates before all `[...]` candidates and returns `{"a": 1}`. -/
theorem safe_extract_json_not_closing_order :
    spec_candidates_in_closing_order "[1, 2] \x7b\"a\": 1\x7d" =
      ["[1, 2]", "\x7b\"a\": 1\x7d"] ∧
    jsonValid "[1, 2]" = true ∧
    jsonValid "\x7b\"a\": 1\x7d" = true ∧
    safe_extract_json "[1, 2] \x7b\"a\": 1\x7d" = Except.ok "\x7b\"a\": 1\x7d" ∧
    ("\x7b\"a\": 1\x7d" : String) ≠ "[1, 2]" :=
  ⟨rfl, rfl, rfl, rfl, by decide⟩

/-- C6 (amended): the extractor collects the balanced `{...}` candidates in
scan order followed by the balanced `[...]` candidates in scan order, tries
them in that order and returns the first candidate that parses as JSON
(`List.find?`); if none parses it falls back to the whole stripped text, and
otherwise fails.  In particular, when an earlier candidate is invalid and a
later one is valid, the later one is returned. -/
theorem safe_extract_json_first_valid (text : String) :
    safe_extract_json text =
      match (find_json_objects (strip_markdown_json text) ++
             find_json_arrays (strip_markdown_json text)).find? jsonValid with
      | some c => Except.ok c
      | none =>
        if jsonValid (strip_markdown_json text) then Except.ok (strip_markdown_json text)
        else Except.error "Не удалось найти валидный JSON объект или массив" := by
  rw [safe_extract_json, validate_json_candidates_eq_find]

/-- C7 (counterexample): a stray `}` in the surrounding prose defeats the
brace scan, so a well-formed JSON object embedded in surrounding text is not
recovered: for the text `} {"a": 1}` (the serialization of the object
`{"a": 1}` preceded by the prose `} `) extraction raises instead of
returning the embedded object. -/
theorem safe_extract_json_roundtrip_counterexample :
    jsonParse "\x7b\"a\": 1\x7d" = some (Json.obj [("a", Json.num "1")]) ∧
    safe_extract_json "\x7d \x7b\"a\": 1\x7d" =
      Except.error "Не удалось найти валидный JSON объект или массив" :=
  ⟨rfl, rfl⟩

/-- C7 (amended): for every well-formed JSON object `o` and every embedding
of a serialization `s` of `o` into surrounding text, provided the
surrounding text (after fence stripping) contains no brace characters
outside `s` and the braces of `s` are balanced with every proper prefix at
positive depth (true of serializations whose string literals contain no
braces), extraction succeeds and returns a string that re-parses to a
structure equal to `o`. -/
theorem safe_extract_json_embedded_roundtrip (text : String) (pre s post : List Char)
    (o : Json)
    (hsplit : (strip_markdown_json text).toList = pre ++ s ++ post)
    (hpre : ∀ c ∈ pre, c ≠ '{' ∧ c ≠ '}')
    (hpost : ∀ c ∈ post, c ≠ '{' ∧ c ≠ '}')
    (hhead : ∃ t, s = '{' :: t)
    (hbal : cntDelim '{' '}' s = 0)
    (hpos : ∀ i : Nat, i < s.length → 0 < i → 0 < cntDelim '{' '}' (s.take i))
    (hparse : jsonParse (String.mk s) = some o) :
    ∃ r, safe_extract_json text = Except.ok r ∧ jsonParse r = some o := by
  refine ⟨String.mk s, ?_, hparse⟩
  have hposP : ∀ p, p <+: s → p ≠ [] → p ≠ s → 0 < cntDelim '{' '}' p := by
    intro p hp hne hns
    have hlen : p.length ≤ s.length := hp.length_le
    have heq : p = s.take p.length := List.prefix_iff_eq_take.mp hp
    have hlt : p.length < s.length := by
      rcases lt_or_eq_of_le hlen with h | h
      · exact h
      · exact absurd (by rw [heq, h, List.take_length]) hns
    have h0 : 0 < p.length := List.length_pos.mpr hne
    have h := hpos p.length hlt h0
    rw [← heq] at h
    exact h
  have hobj : find_json_objects (strip_markdown_json text) = [String.mk s] := by
    rw [find_json_objects, hsplit]
    exact scanDelim_embedded '{' '}' (by decide) pre s post hpre hpost hhead hbal hposP
  have hvalid : jsonValid (String.mk s) = true := by
    rw [jsonValid, hparse]
    rfl
  simp only [safe_extract_json]
  rw [hobj]
  simp [validate_json_candidates, hvalid]

/-- Witness for C7 at a concrete embedded object. -/
theorem safe_extract_json_embedded_roundtrip_witness :
    ∃ r, safe_extract_json "Result: \x7b\"a\": 1\x7d done." = Except.ok r ∧
      jsonParse r = some (Json.obj [("a", Json.num "1")]) :=
  safe_extract_json_embedded_roundtrip "Result: \x7b\"a\": 1\x7d done."
    "Result: ".toList "\x7b\"a\": 1\x7d".toList " done.".toList
    (Json.obj [("a", Json.num "1")])
    (by decide) (by decide) (by decide) ⟨"\"a\": 1\x7d".toList, by decide⟩
    (by decide) (by decide) rfl

/-- C9 (counterexample): the adjacency keys are not exactly the tables
appearing after `FROM`.  For the single query `SELECT * FROM a JOIN b` the
only `FROM` table is `a`, yet the implementation also makes the `JOIN` table
`b` a key — mapped to a set containing `b` itself. -/
theorem data_lineage_keys_counterexample :
    extract_from_tables "SELECT * FROM a JOIN b" = ["a"] ∧
    lineage_keys ["SELECT * FROM a JOIN b"] = ["a", "b"] ∧
    "b" ∉ extract_from_tables "SELECT * FROM a JOIN b" ∧
    lineage_deps ["SELECT * FROM a JOIN b"] "b" = {"b"} :=
  ⟨rfl, rfl, by decide, by decide⟩

/-- C9 (amended): the adjacency keys are exactly the tables appearing after
`FROM` **or** `JOIN` in some query; each key maps to the set of all tables
appearing after `JOIN` in the queries that mention the key; and the critical
tables are the top 3 keys by out-degree: the report lists
`min 3 (number of keys)` keys and every unlisted key's out-degree is at most
every listed key's out-degree. -/
theorem data_lineage_adjacency_and_critical (queries : List String) :
    (∀ t, t ∈ lineage_keys queries ↔
      ∃ q ∈ queries, t ∈ extract_from_tables q ∨ t ∈ extract_join_tables q) ∧
    (∀ t u, u ∈ lineage_deps queries t ↔
      ∃ q ∈ queries, (t ∈ extract_from_tables q ∨ t ∈ extract_join_tables q) ∧
        u ∈ extract_join_tables q) ∧
    (critical_tables queries).length = min 3 (lineage_keys queries).length ∧
    ∀ c ∈ critical_tables queries, ∀ k ∈ lineage_keys queries,
      k ∉ critical_tables queries → lineage_deg queries k ≤ lineage_deg queries c := by
  refine ⟨fun t => lineage_keys_mem t queries, ?_, ?_, ?_⟩
  · intro t u
    rw [lineage_deps_mem u t queries]
    constructor
    · rintro ⟨q, hq, ht, hu⟩
      exact ⟨q, hq, (extract_tables_mem t q).mp ht, hu⟩
    · rintro ⟨q, hq, ht, hu⟩
      exact ⟨q, hq, (extract_tables_mem t q).mpr ht, hu⟩
  · rw [critical_tables, List.length_take,
      (sortByDegDesc_perm (lineage_deg queries) (lineage_keys queries)).length_eq]
  · intro c hc k hk hknc
    set S := sortByDegDesc (lineage_deg queries) (lineage_keys queries) with hS
    have hkS : k ∈ S :=
      (sortByDegDesc_perm (lineage_deg queries) (lineage_keys queries)).mem_iff.mpr hk
    have hkdrop : k ∈ S.drop 3 := by
      rcases List.mem_append.mp ((List.take_append_drop 3 S) ▸ hkS) with h | h
      · exact absurd h hknc
      · exact h
    have hsorted : (S.take 3 ++ S.drop 3).Pairwise
        (fun a b => lineage_deg queries b ≤ lineage_deg queries a) := by
      rw [List.take_append_drop]
      exact sortByDegDesc_sorted (lineage_deg queries) (lineage_keys queries)
    exact (List.pairwise_append.mp hsorted).2.2 c hc k hkdrop

/-- Witness for C9's critical-table bound at a concrete workload. -/
theorem data_lineage_adjacency_and_critical_witness :
    ("c" ∈ critical_tables ["SELECT * FROM a JOIN b", "SELECT * FROM c JOIN d JOIN e"] ∧
     "a" ∈ lineage_keys ["SELECT * FROM a JOIN b", "SELECT * FROM c JOIN d JOIN e"] ∧
     "a" ∉ critical_tables ["SELECT * FROM a JOIN b", "SELECT * FROM c JOIN d JOIN e"]) ∧
    lineage_deg ["SELECT * FROM a JOIN b", "SELECT * FROM c JOIN d JOIN e"] "a" ≤
      lineage_deg ["SELECT * FROM a JOIN b", "SELECT * FROM c JOIN d JOIN e"] "c" :=
  ⟨⟨by decide, by decide, by decide⟩,
   (data_lineage_adjacency_and_critical
      ["SELECT * FROM a JOIN b", "SELECT * FROM c JOIN d JOIN e"]).2.2.2
     "c" (by decide) "a" (by decide) (by decide)⟩

/-- C1: for queries that are otherwise valid (non-empty DDL with non-blank
string statements; non-empty query list with non-blank, pairwise-distinct
ids and non-blank texts), negative `runquantity` or `executiontime` values
never cause a validation failure: `_validate_parsed_data` returns the valid
status (regardless of the signs), and any negative value produces a
warning. -/
theorem negative_metrics_warn_only (ddl : List PVal) (queries : List PyQuery)
    (hddl : ddl ≠ [])
    (hddls : ∀ d ∈ ddl, ∃ s, d = PVal.pstr s ∧ pyStrip s.toList ≠ [])
    (hq : queries ≠ [])
    (hqf : ∀ q ∈ queries, pyStrip q.query_id.toList ≠ [] ∧ pyStrip q.query.toList ≠ [])
    (hnodup : (queries.map (·.query_id)).Nodup) :
    validate_parsed_data ddl queries = Except.ok VRes.validRes ∧
    (∀ q ∈ queries, (q.runquantity < 0 ∨ q.executiontime < 0) →
      validation_warnings queries ≠ []) := by
  have hddlE : ddl.isEmpty = false := by
    cases ddl with
    | nil => exact absurd rfl hddl
    | cons a l => rfl
  have hqE : queries.isEmpty = false := by
    cases queries with
    | nil => exact absurd rfl hq
    | cons a l => rfl
  constructor
  · rw [validate_parsed_data, validation_errors, hddlE]
    simp only [Bool.false_eq_true, if_false]
    rw [ddl_item_errors_ok ddl 0 hddls, hqE]
    simp only [Bool.false_eq_true, if_false]
    rw [query_errs_nil queries 0 [] hqf hnodup (fun q _ h => List.not_mem_nil _ h)]
    simp [Except.map]
  · intro q hqm hneg
    rw [validation_warnings, hqE]
    simp only [Bool.false_eq_true, if_false]
    exact query_warns_ne_nil queries q hqm hneg

/-- Witness for C1: a well-formed single-query request with a negative
`runquantity` passes validation and produces a warning. -/
theorem negative_metrics_warn_only_witness :
    validate_parsed_data [PVal.pstr "CREATE TABLE t (a int)"]
      [⟨"q1", "SELECT 1", -5, 10⟩] = Except.ok VRes.validRes ∧
    validation_warnings [⟨"q1", "SELECT 1", -5, 10⟩] ≠ [] :=
  ⟨(negative_metrics_warn_only [PVal.pstr "CREATE TABLE t (a int)"]
      [⟨"q1", "SELECT 1", -5, 10⟩] (by simp)
      (fun d hd => ⟨"CREATE TABLE t (a int)", by simpa using hd, by decide⟩)
      (by simp)
      (fun p hp => by
        rw [List.mem_singleton] at hp
        subst hp
        exact ⟨by decide, by decide⟩)
      (by decide)).1,
   (negative_metrics_warn_only [PVal.pstr "CREATE TABLE t (a int)"]
      [⟨"q1", "SELECT 1", -5, 10⟩] (by simp)
      (fun d hd => ⟨"CREATE TABLE t (a int)", by simpa using hd, by decide⟩)
      (by simp)
      (fun p hp => by
        rw [List.mem_singleton] at hp
        subst hp
        exact ⟨by decide, by decide⟩)
      (by decide)).2
     ⟨"q1", "SELECT 1", -5, 10⟩ (List.mem_singleton.mpr rfl) (Or.inl (by decide))⟩

/-- C2 (counterexample): a request that passes validation with a non-empty
warnings list (negative `runquantity`) yields a successful review whose
warnings are empty — `_validate_parsed_data` logs the warnings but returns
only `{"status": "valid"}`, so they never reach the response. -/
theorem warnings_dropped_on_success :
    validation_warnings [⟨"q1", "SELECT 1", -5, 10⟩] =
      ["Запрос q1 имеет отрицательное значение runquantity"] ∧
    parse_and_validate_payload fixture_payload =
      ParseResult.pok "u" [PVal.pstr "CREATE TABLE t (a int)"]
        [⟨"q1", "SELECT 1", -5, 10⟩] ∧
    review_schema fixture_payload fixture_empty_response =
      { success := true, message := "Schema review completed successfully", error := "",
        ddl := [], migrations := [], queries := [], warnings := [] } :=
  ⟨rfl, rfl, rfl⟩

/-- C2 (amended): validation warnings accompany the review result only on
the validation-error path (the error response carries them verbatim);
warnings alone never turn validation into an error; and on the success path
the response is computed from the provider JSON alone, so validation
warnings are dropped. -/
theorem warnings_on_error_path_only (payload : List (String × PVal)) (resp : String) :
    (∀ e d w, parse_and_validate_payload payload = ParseResult.perrorList e d w →
      review_schema payload resp =
        { success := false, message := "Validation or processing error", error := e,
          ddl := [], migrations := [], queries := [], warnings := w }) ∧
    (∀ ddl queries e d w,
      validate_parsed_data ddl queries = Except.ok (VRes.errorRes e d w) → d ≠ []) ∧
    (∀ url ddl queries j,
      parse_and_validate_payload payload = ParseResult.pok url ddl queries →
      parse_response resp = Except.ok j →
      review_schema payload resp =
        match convert_result_to_grpc j with
        | .ok r => r
        | .error e =>
          { success := false, message := "Internal server error", error := e,
            ddl := [], migrations := [], queries := [], warnings := [] }) := by
  refine ⟨?_, ?_, ?_⟩
  · intro e d w hpv
    rw [review_schema, agent_review, hpv]
    simp [convert_result_to_grpc, jLookup, warningsField_strs, Except.map]
  · intro ddl queries e d w hv
    rw [validate_parsed_data] at hv
    cases hve : validation_errors ddl queries with
    | error s =>
      rw [hve] at hv
      exact absurd hv (by simp [Except.map])
    | ok errs =>
      rw [hve] at hv
      simp only [Except.map] at hv
      by_cases he : errs ≠ []
      · rw [if_pos he] at hv
        have : errs = d := by
          have h := Except.ok.inj hv
          cases h
          rfl
        rw [← this]
        exact he
      · rw [if_neg he] at hv
        exact absurd (Except.ok.inj hv) (by simp)
  · intro url ddl queries j hpv hpr
    rw [review_schema, agent_review, hpv]
    simp only []
    rw [hpr]

/-- Witness for C2 at concrete requests: the duplicate-id request returns
the validation error together with both accumulated warnings; a concrete
validation-error result has a non-empty error list; and the success path
response equals the conversion of the provider JSON alone. -/
theorem warnings_on_error_path_only_witness :
    review_schema fixture_dup_payload fixture_empty_response =
      { success := false, message := "Validation or processing error",
        error := "Ошибка валидации", ddl := [], migrations := [], queries := [],
        warnings := ["Запрос q1 имеет отрицательное значение runquantity",
                     "Запрос q1 имеет отрицательное значение runquantity"] } ∧
    (["Найден дубликат query_id: q1"] : List String) ≠ [] ∧
    review_schema fixture_payload fixture_empty_response =
      (match convert_result_to_grpc
          (Json.obj [("ddl", Json.arr []), ("migrations", Json.arr []),
            ("queries", Json.arr [])]) with
       | .ok r => r
       | .error e =>
         { success := false, message := "Internal server error", error := e,
           ddl := [], migrations := [], queries := [], warnings := [] }) :=
  ⟨(warnings_on_error_path_only fixture_dup_payload fixture_empty_response).1
     "Ошибка валидации" ["Найден дубликат query_id: q1"]
     ["Запрос q1 имеет отрицательное значение runquantity",
      "Запрос q1 имеет отрицательное значение runquantity"] rfl,
   (warnings_on_error_path_only fixture_dup_payload fixture_empty_response).2.1
     [PVal.pstr "CREATE TABLE t (a int)"]
     [⟨"q1", "SELECT 1", -5, 10⟩, ⟨"q1", "SELECT 1", -5, 10⟩]
     "Ошибка валидации" ["Найден дубликат query_id: q1"]
     ["Запрос q1 имеет отрицательное значение runquantity",
      "Запрос q1 имеет отрицательное значение runquantity"] (by rfl),
   (warnings_on_error_path_only fixture_payload fixture_empty_response).2.2
     "u" [PVal.pstr "CREATE TABLE t (a int)"] [⟨"q1", "SELECT 1", -5, 10⟩]
     (Json.obj [("ddl", Json.arr []), ("migrations", Json.arr []),
       ("queries", Json.arr [])]) rfl rfl⟩

/-- C3 (counterexample): a request with two malformed DDL elements (indexes
0 and 1) is reported with an error naming only index 0; the second problem
surfaces only after the first is fixed. -/
theorem structural_errors_not_all_reported :
    parse_and_validate_payload fixture_two_bad_ddl =
      ParseResult.perror "Неверный элемент DDL на индексе 0"
        "Элементы DDL должны иметь поле 'statement' или быть строками" ∧
    parse_and_validate_payload fixture_one_bad_ddl =
      ParseResult.perror "Неверный элемент DDL на индексе 1"
        "Элементы DDL должны иметь поле 'statement' или быть строками" :=
  ⟨rfl, rfl⟩

/-- C3 (amended): missing required top-level keys are all reported together
in one error; but element-level structural problems are reported one at a
time — parsing stops at the first malformed DDL element (and similarly for
queries), naming only its index. -/
theorem structural_error_reporting (payload : List (String × PVal)) :
    (∀ m, m = ["url", "ddl", "queries"].filter (fun k => (pLookup payload k).isNone) →
      m ≠ [] →
      parse_and_validate_payload payload =
        ParseResult.perror "Отсутствуют обязательные ключи"
          ("Отсутствующие ключи: " ++ pyStrVal (.plist (m.map .pstr)))) ∧
    (∀ u good bad rest,
      pLookup payload "url" = some (.pstr u) → u ≠ "" →
      pLookup payload "ddl" = some (.plist (good ++ bad :: rest)) →
      ["url", "ddl", "queries"].filter (fun k => (pLookup payload k).isNone) = [] →
      (∀ g ∈ good, goodDDLItem g = true) → goodDDLItem bad = false →
      parse_and_validate_payload payload =
        ParseResult.perror ("Неверный элемент DDL на индексе " ++ toString good.length)
          "Элементы DDL должны иметь поле 'statement' или быть строками") := by
  constructor
  · intro m hm hne
    subst hm
    simp only [parse_and_validate_payload]
    rw [if_pos hne]
  · intro u good bad rest hurl hu hddl hfe hgood hbad
    simp only [parse_and_validate_payload]
    rw [if_neg (by simp [hfe]), hurl]
    simp only [if_neg hu]
    rw [hddl]
    simp only [parse_ddl_items_error_at good bad rest 0 hgood hbad, Nat.zero_add]

/-- Witness for C3: a payload missing `url` and `ddl` lists both keys in
one error, and a payload whose first DDL element is malformed is reported
at index 0. -/
theorem structural_error_reporting_witness :
    parse_and_validate_payload [("queries", PVal.plist [])] =
      ParseResult.perror "Отсутствуют обязательные ключи"
        "Отсутствующие ключи: ['url', 'ddl']" ∧
    parse_and_validate_payload fixture_two_bad_ddl =
      ParseResult.perror "Неверный элемент DDL на индексе 0"
        "Элементы DDL должны иметь поле 'statement' или быть строками" :=
  ⟨(structural_error_reporting [("queries", PVal.plist [])]).1 ["url", "ddl"] rfl
     (by simp),
   (structural_error_reporting fixture_two_bad_ddl).2 "u" [] (.pint 1) [.pint 2]
     rfl (by simp) rfl rfl (fun g hg => absurd hg (List.not_mem_nil g)) rfl⟩

/-- C8 (counterexample): an accepted provider response carrying an invented
`query_id` flows through to the final result unfiltered: the request's only
query id is `q1`, yet the response's `q2` is returned. -/
theorem invented_query_id_returned :
    parse_and_validate_payload fixture_payload =
      ParseResult.pok "u" [PVal.pstr "CREATE TABLE t (a int)"]
        [⟨"q1", "SELECT 1", -5, 10⟩] ∧
    ([(⟨"q1", "SELECT 1", -5, 10⟩ : PyQuery)].map PyQuery.query_id) = ["q1"] ∧
    (review_schema fixture_payload fixture_invented_response).queries =
      [("q2", "SELECT 2")] ∧
    "q2" ∉ (["q1"] : List String) :=
  ⟨rfl, rfl, rfl, by decide⟩

/-- C8 (amended): every `(query_id, query)` pair of the final gRPC response
originates from an entry of the `queries` field of the JSON parsed out of
the provider response; the pipeline neither filters these ids against the
request's input ids nor invents ids itself. -/
theorem result_query_ids_from_response (payload : List (String × PVal)) (resp : String)
    (qid q : String)
    (hm : (qid, q) ∈ (review_schema payload resp).queries) :
    ∃ fields items fs, parse_response resp = Except.ok (Json.obj fields) ∧
      jLookup fields "queries" = some (Json.arr items) ∧
      Json.obj fs ∈ items ∧ jLookup fs "query_id" = some (Json.str qid) ∧
      jLookup fs "query" = some (Json.str q) := by
  rw [review_schema] at hm
  cases hc : convert_result_to_grpc (agent_review payload resp) with
  | error e =>
    rw [hc] at hm
    exact absurd hm (List.not_mem_nil _)
  | ok r =>
    rw [hc] at hm
    change (qid, q) ∈ r.queries at hm
    obtain ⟨fields, items, fs, hj, hq, hmemitems, h1, h2⟩ :=
      convert_result_queries_from _ r hc qid q hm
    rw [agent_review] at hj
    cases hpv : parse_and_validate_payload payload with
    | pok u ddl qs =>
      rw [hpv] at hj
      cases hpr : parse_response resp with
      | ok j' =>
        rw [hpr] at hj
        change j' = Json.obj fields at hj
        subst hj
        exact ⟨fields, items, fs, rfl, hq, hmemitems, h1, h2⟩
      | error e =>
        rw [hpr] at hj
        change Json.obj [("error", Json.str "Внутренняя ошибка при анализе схемы"),
          ("details", Json.str e)] = Json.obj fields at hj
        obtain rfl := (Json.obj.inj hj).symm
        simp [jLookup, List.find?] at hq
    | perror e d =>
      rw [hpv] at hj
      change Json.obj [("error", Json.str e), ("details", Json.str d)] =
        Json.obj fields at hj
      obtain rfl := (Json.obj.inj hj).symm
      simp [jLookup, List.find?] at hq
    | perrorList e d w =>
      rw [hpv] at hj
      change Json.obj [("error", Json.str e), ("details", Json.arr (d.map Json.str)),
        ("warnings", Json.arr (w.map Json.str))] = Json.obj fields at hj
      obtain rfl := (Json.obj.inj hj).symm
      simp [jLookup, List.find?] at hq

/-- Witness for C8 at the invented-id response: the returned pair
`("q2", "SELECT 2")` traces back to the provider JSON. -/
theorem result_query_ids_from_response_witness :
    ∃ fields items fs,
      parse_response fixture_invented_response = Except.ok (Json.obj fields) ∧
      jLookup fields "queries" = some (Json.arr items) ∧
      Json.obj fs ∈ items ∧ jLookup fs "query_id" = some (Json.str "q2") ∧
      jLookup fs "query" = some (Json.str "SELECT 2") :=
  result_query_ids_from_response fixture_payload fixture_invented_response
    "q2" "SELECT 2" (by decide)

/-- C10: each of the three analysis tools is total at its `_run` interface:
for every input it returns a string.  The diff and lineage bodies contain no
fallible operation, so `_run` returns the report; the performance body's
`float()` / `int()` / `.upper()` calls can raise, and when they do, `_run`
returns the diagnostic string carrying the error's text (surrounded by the
fixed prefix), never propagating the exception. -/
theorem tools_run_total_with_diagnostics (fmtF : ℚ → String) (fmt2 : ℝ → String)
    (qs : List (List (String × PVal))) (queries current proposed : List String) :
    ((∃ s, performance_body fmtF fmt2 qs = Except.ok s ∧
        performance_run fmtF fmt2 qs = s) ∨
     (∃ e, performance_body fmtF fmt2 qs = Except.error e ∧
        performance_run fmtF fmt2 qs = "Ошибка при анализе производительности: " ++ e)) ∧
    data_lineage_run queries = data_lineage_report queries ∧
    schema_diff_run current proposed = schema_diff_report current proposed := by
  refine ⟨?_, rfl, rfl⟩
  cases hb : performance_body fmtF fmt2 qs with
  | ok s =>
    exact Or.inl ⟨s, rfl, by rw [performance_run, hb]⟩
  | error e =>
    exact Or.inr ⟨e, rfl, by rw [performance_run, hb]⟩

end TrinoReviewer
